import Mathlib

/-!
Shallow embedding of the bulk dual-subtitle logic of plex-dualsub-manager.

The definitions below are translated from the frontend API client
(getSubtitleAnalysis, processBulkDualSubtitles, episodeHasDualSubtitle,
getLanguageName, formatTimeRemaining), from the EpisodePreviewStep statistics
computation, and from the filename language detector
(extractLanguageFromFilename).  JavaScript strings become String, numbers in
millisecond arithmetic become Nat where they are integers and Rat where the
code divides, optional fields become Option, and thrown exceptions become
Except values supplied by an explicit execution environment.
-/

/-- JavaScript logical-or on a possibly missing string: an undefined value or
an empty string (both falsy) fall through to the default. -/
def jsOrStr : Option String → String → String
  | some v, d => if v = "" then d else v
  | none, d => d

/-- One external subtitle file entry as returned by the subtitles endpoint. -/
structure ExternalSub where
  file_path : String
  file_name : String
  language_code : Option String
  is_dual_subtitle : Bool
  dual_languages : Option (List String)
deriving DecidableEq, Repr

/-- One embedded subtitle stream entry. -/
structure EmbeddedSub where
  stream_index : Nat
  languageCode : Option String
  display_name : String
deriving DecidableEq, Repr

/-- The per-episode subtitle listing returned by getEpisodeSubtitles. -/
structure EpisodeSubtitles where
  external_subtitles : List ExternalSub
  embedded_subtitles : List EmbeddedSub
deriving DecidableEq, Repr

/-- The episode identity fields used by the analysis. -/
structure Episode where
  id : String
  season_episode : String
  title : String
deriving DecidableEq, Repr

/-- One recorded embedded stream inside an episode detail entry. -/
structure EmbStream where
  stream_index : Nat
  language_code : String
  display_name : String
deriving DecidableEq, Repr

/-- One entry of a language availability episode_details list. -/
structure EpisodeInfo where
  episode_id : String
  season_episode : String
  title : String
  has_external : Bool
  has_embedded : Bool
  existing_dual_subtitles : List ExternalSub
  embedded_streams : List EmbStream
deriving DecidableEq, Repr

/-- Per-language availability data of the subtitle analysis. -/
structure Availability where
  name : String
  episodes_available : Nat
  episodes_with_external : Nat
  episodes_with_embedded : Nat
  episode_details : List EpisodeInfo
deriving DecidableEq, Repr

/-- The subtitle analysis result: total episode count plus the language map,
modelled as an association list keyed by language code. -/
structure SubtitleAnalysis where
  total_episodes : Nat
  language_availability : List (String × Availability)
deriving DecidableEq, Repr

/-- Property lookup on a JavaScript object modelled as an association list. -/
def jsLookup {α : Type} (l : List (String × α)) (k : String) : Option α :=
  match l with
  | [] => none
  | (k1, v) :: rest => if k1 = k then some v else jsLookup rest k

/-- The literal language-name table of getLanguageName. -/
def languagesTable : List (String × String) :=
  [("en", "English"), ("ja", "Japanese"), ("es", "Spanish"), ("fr", "French"),
   ("de", "German"), ("it", "Italian"), ("pt", "Portuguese"), ("ru", "Russian"),
   ("ko", "Korean"), ("zh", "Chinese"), ("zho", "Chinese"), ("spa", "Spanish"),
   ("ar", "Arabic"), ("unknown", "Unknown"), ("zh-TW", "Chinese (Traditional)"),
   ("zh-HK", "Chinese (Hong Kong)"), ("zh-CN", "Chinese (Simplified)"),
   ("zh-SG", "Chinese (Singapore)")]

/-- getLanguageName: the hearing-impaired special case fires before the table
lookup, and an unmapped code falls back to its upper-cased form. -/
def getLanguageName (code : String) : String :=
  if code = "hi" then "Hearing Impaired"
  else jsOrStr (jsLookup languagesTable code) code.toUpper

/-- Normalisation of a possibly missing language code: a missing or empty
(falsy) code is bucketed under the literal code unknown. -/
def normCode : Option String → String
  | some c => if c = "" then "unknown" else c
  | none => "unknown"

/-- The rolling average of recorded episode durations in milliseconds, with
the hard-coded 45-second default when nothing has been recorded yet. -/
def averageTimePerEpisodeMs (times : List Nat) : Rat :=
  if times = [] then 45000 else (times.sum : Rat) / (times.length : Rat)

/-- estimatedRemainingMs of the bulk loop: remaining count times the average
recorded duration. -/
def estimateRemainingMs (times : List Nat) (remaining : Nat) : Rat :=
  (remaining : Rat) * averageTimePerEpisodeMs times

/-- JavaScript Math.round: round half toward positive infinity. -/
def jsRound (q : Rat) : Int := ⌊q + 1 / 2⌋

/-- formatTimeRemaining from the API client, on a millisecond quantity. -/
def formatTimeRemaining (ms : Rat) : String :=
  let seconds : Nat := (jsRound (ms / 1000)).toNat
  let minutes : Nat := seconds / 60
  let remainingSeconds : Nat := seconds % 60
  if minutes > 0 then
    toString minutes ++ "m " ++ toString remainingSeconds ++ "s"
  else
    toString seconds ++ "s"

/-- The styling configuration snapshot carried into every per-episode
request of a bulk run. -/
structure StylingConfig where
  primary_position : String
  secondary_position : String
  primary_color : String
  secondary_color : String
  primary_font_size : Nat
  secondary_font_size : Nat
deriving DecidableEq, Repr

/-- The request body built by the bulk loop for one episode: the styling
snapshot plus the resolved subtitle references and bulk flags. -/
structure CreateConfig where
  styling : StylingConfig
  primary_subtitle : String
  secondary_subtitle : String
  enable_sync : Bool
  sync_method : String
  bulk_mode : Bool
deriving DecidableEq, Repr

/-- The fields of a caught JavaScript error inspected by the bulk loop. -/
structure JsError where
  message : String
  code : Option String
  status : Option Nat
  detail : Option String
deriving DecidableEq, Repr

/-- A successful createDualSubtitle response. -/
structure CreateOk where
  output_file : String
deriving DecidableEq, Repr

/-- The execution environment of a bulk run: the execution-time subtitle
listing of each episode, the outcome of each create call, and the measured
wall-clock duration of each episode. -/
structure ExecEnv where
  subs : String → Except JsError EpisodeSubtitles
  create : String → CreateConfig → Except JsError CreateOk
  duration : String → Nat

/-- JavaScript String.prototype.includes on character lists: some suffix of
the haystack starts with the needle. -/
def listIncludes (needle : List Char) : List Char → Bool
  | [] => needle.isPrefixOf []
  | c :: rest => needle.isPrefixOf (c :: rest) || listIncludes needle rest

/-- JavaScript String.prototype.includes. -/
def strIncludes (hay needle : String) : Bool := listIncludes needle.toList hay.toList

/-- The error-message classification of the bulk loop catch block. -/
def classifyError (e : JsError) : String :=
  let errorMessage := if e.message = "" then "Unknown error" else e.message
  if e.code = some "ECONNABORTED" ∨ strIncludes errorMessage "timeout" = true then
    "Processing timeout (subtitle creation takes longer than expected)"
  else if e.status = some 500 then
    jsOrStr e.detail "Server error during subtitle creation"
  else if e.status = some 404 then
    "Episode or subtitle files not found"
  else errorMessage

/-- One entry of the successful result list. -/
structure SuccessEntry where
  episode_id : String
  output_file : String
  episode_title : String
deriving DecidableEq, Repr

/-- One entry of the failed result list. -/
structure FailEntry where
  episode_id : String
  error : String
  episode_title : String
deriving DecidableEq, Repr

/-- One entry of the skipped result list. -/
structure SkipEntry where
  episode_id : String
  reason : String
deriving DecidableEq, Repr

/-- The three outcome buckets returned by processBulkDualSubtitles. -/
structure BulkResults where
  successful : List SuccessEntry
  failed : List FailEntry
  skipped : List SkipEntry
deriving DecidableEq, Repr

/-- One onProgress callback payload. -/
structure ProgressReport where
  processed : Nat
  total : Nat
  currentEpisode : Option String
  estimatedTimeRemaining : Option String
  averageTimePerEpisode : Option Int
deriving DecidableEq, Repr

/-- Whether one existing dual-subtitle entry covers the requested language
pair: it must carry at least two language codes and its first two codes must
equal the requested pair in either order. -/
def dualMatches (p s : String) (dualSub : ExternalSub) : Bool :=
  match dualSub.dual_languages with
  | some (lang1 :: lang2 :: _) =>
      (lang1 = p ∧ lang2 = s) ∨ (lang1 = s ∧ lang2 = p)
  | _ => false

/-- episodeHasDualSubtitle helper of the API client. -/
def episodeHasDualSubtitle (episode : EpisodeInfo) (primaryLang secondaryLang : String) : Bool :=
  episode.existing_dual_subtitles.any (dualMatches primaryLang secondaryLang)

/-- The episodes present in both chosen languages, computed as in both the
bulk loop and the preview statistics: filter the primary detail list by
membership of its episode id in the secondary detail list. -/
def episodesWithBothLangs (primaryAvail secondaryAvail : Availability) : List EpisodeInfo :=
  primaryAvail.episode_details.filter (fun ep =>
    secondaryAvail.episode_details.any (fun secEp => secEp.episode_id = ep.episode_id))

/-- The bulk task list: episodes with both languages, minus those already
carrying a dual output for the requested unordered pair. -/
def episodesToProcessList (primaryAvail secondaryAvail : Availability)
    (p s : String) : List EpisodeInfo :=
  (episodesWithBothLangs primaryAvail secondaryAvail).filter (fun ep =>
    ¬ ep.existing_dual_subtitles.any (dualMatches p s))

/-- The embedded stream index reference used when no external file resolves:
the stream index of the first embedded stream in the requested language, or
the JavaScript undefined rendering when none exists. -/
def embeddedIndexRef (subs : EpisodeSubtitles) (lang : String) : String :=
  match subs.embedded_subtitles.find? (fun st => st.languageCode == some lang) with
  | some st => toString st.stream_index
  | none => "undefined"

/-- The per-episode request construction of the bulk loop: prefer the external
file path of each language and otherwise reference the embedded stream. -/
def buildConfig (styling : StylingConfig) (subs : EpisodeSubtitles) (p s : String)
    (primarySub secondarySub : Option ExternalSub) : CreateConfig :=
  { styling := styling
    primary_subtitle :=
      jsOrStr (primarySub.map (·.file_path)) ("embedded:" ++ embeddedIndexRef subs p)
    secondary_subtitle :=
      jsOrStr (secondarySub.map (·.file_path)) ("embedded:" ++ embeddedIndexRef subs s)
    enable_sync := true
    sync_method := "auto"
    bulk_mode := true }

/-- The outcome of one bulk task. -/
inductive TaskOutcome where
  | succeeded (entry : SuccessEntry) (duration : Nat)
  | taskFailed (entry : FailEntry)
  | taskSkipped (entry : SkipEntry)
deriving DecidableEq, Repr

/-- The body of one bulk loop iteration: fetch the execution-time subtitle
listing, look for external tracks of both languages, fall back to embedded
streams, skip when one language has neither, and otherwise call the create
endpoint, catching any error. -/
def taskOutcome (env : ExecEnv) (p s : String) (styling : StylingConfig)
    (episode : EpisodeInfo) : TaskOutcome :=
  match env.subs episode.episode_id with
  | .error e => .taskFailed ⟨episode.episode_id, classifyError e, episode.title⟩
  | .ok episodeSubtitles =>
    let primarySub := episodeSubtitles.external_subtitles.find?
      (fun sub => sub.language_code == some p)
    let secondarySub := episodeSubtitles.external_subtitles.find?
      (fun sub => sub.language_code == some s)
    let primaryEmbedded := episodeSubtitles.embedded_subtitles.find?
      (fun sub => sub.languageCode == some p)
    let secondaryEmbedded := episodeSubtitles.embedded_subtitles.find?
      (fun sub => sub.languageCode == some s)
    let proceed : TaskOutcome :=
      let config := buildConfig styling episodeSubtitles p s primarySub secondarySub
      match env.create episode.episode_id config with
      | .ok result =>
          .succeeded ⟨episode.episode_id, result.output_file, episode.title⟩
            (env.duration episode.episode_id)
      | .error e => .taskFailed ⟨episode.episode_id, classifyError e, episode.title⟩
    if primarySub.isNone || secondarySub.isNone then
      if primarySub.isNone && primaryEmbedded.isNone then
        .taskSkipped ⟨episode.episode_id, "Missing " ++ p ++ " subtitle"⟩
      else if secondarySub.isNone && secondaryEmbedded.isNone then
        .taskSkipped ⟨episode.episode_id, "Missing " ++ s ++ " subtitle"⟩
      else proceed
    else proceed

/-- The progress payload emitted at the start of a loop iteration. -/
def mkReport (i total : Nat) (episode : EpisodeInfo) (times : List Nat) : ProgressReport :=
  { processed := i
    total := total
    currentEpisode := some (episode.season_episode ++ ": " ++ episode.title)
    estimatedTimeRemaining := some (formatTimeRemaining (estimateRemainingMs times (total - i)))
    averageTimePerEpisode := some (jsRound (averageTimePerEpisodeMs times / 1000)) }

/-- The mutable state threaded through the bulk loop. -/
structure LoopState where
  results : BulkResults
  episodeTimes : List Nat
  reports : List ProgressReport
deriving DecidableEq, Repr

/-- The bulk processing loop: one progress report and one outcome bucket entry
per task, with the wall-clock duration recorded on success only. -/
def bulkLoop (env : ExecEnv) (p s : String) (styling : StylingConfig) (total : Nat) :
    List EpisodeInfo → Nat → LoopState → LoopState
  | [], _, st => st
  | episode :: rest, i, st =>
    let rep := mkReport i total episode st.episodeTimes
    let st1 : LoopState := { st with reports := st.reports ++ [rep] }
    let st2 : LoopState :=
      match taskOutcome env p s styling episode with
      | .succeeded entry d =>
          { st1 with
            results := { st1.results with successful := st1.results.successful ++ [entry] }
            episodeTimes := st1.episodeTimes ++ [d] }
      | .taskFailed entry =>
          { st1 with results := { st1.results with failed := st1.results.failed ++ [entry] } }
      | .taskSkipped entry =>
          { st1 with results := { st1.results with skipped := st1.results.skipped ++ [entry] } }
    bulkLoop env p s styling total rest (i + 1) st2

/-- The final onProgress payload emitted after the loop. -/
def finalReport (total : Nat) : ProgressReport :=
  { processed := total, total := total, currentEpisode := none,
    estimatedTimeRemaining := none, averageTimePerEpisode := none }

/-- processBulkDualSubtitles: derive the task list from the availability
analysis, run the loop, and return the outcome buckets together with the
emitted progress reports and the recorded episode durations. -/
def processBulkDualSubtitles (env : ExecEnv) (analysis : SubtitleAnalysis)
    (p s : String) (styling : StylingConfig) :
    Except String (BulkResults × List ProgressReport × List Nat) :=
  match jsLookup analysis.language_availability p,
        jsLookup analysis.language_availability s with
  | some primaryAvail, some secondaryAvail =>
    let episodesToProcess := episodesToProcessList primaryAvail secondaryAvail p s
    let total := episodesToProcess.length
    let st := bulkLoop env p s styling total episodesToProcess 0 ⟨⟨[], [], []⟩, [], []⟩
    .ok (st.results, st.reports ++ [finalReport total], st.episodeTimes)
  | _, _ => .error "Selected languages not available in this show"

/-- Per-language aggregation state of getSubtitleAnalysis: the three unique
episode id sets and the detail list. -/
structure LangData where
  episode_ids : List String
  external_ids : List String
  embedded_ids : List String
  episode_details : List EpisodeInfo
deriving DecidableEq, Repr

/-- The empty per-language aggregation state. -/
def emptyLangData : LangData := ⟨[], [], [], []⟩

/-- JavaScript Set add: append the element unless it is already present. -/
def setAdd (l : List String) (x : String) : List String :=
  if x ∈ l then l else l ++ [x]

/-- The language map of the analysis, modelled as a total function that is
the empty aggregation state outside the touched language codes. -/
def LangMap : Type := String → LangData

/-- Pointwise update of one language entry. -/
def updateLang (m : LangMap) (k : String) (f : LangData → LangData) : LangMap :=
  fun x => if x = k then f (m x) else m x

/-- The final detail entry recorded for one episode: identity fields, source
presence flags, the dual-subtitle entries among its external files, and all
of its embedded streams with normalised language codes. -/
def mkEpisodeInfo (episode : Episode) (subtitles : EpisodeSubtitles) : EpisodeInfo :=
  { episode_id := episode.id
    season_episode := episode.season_episode
    title := episode.title
    has_external := subtitles.external_subtitles.length > 0
    has_embedded := subtitles.embedded_subtitles.length > 0
    existing_dual_subtitles := subtitles.external_subtitles.filter (·.is_dual_subtitle)
    embedded_streams := subtitles.embedded_subtitles.map (fun sub =>
      ⟨sub.stream_index, normCode sub.languageCode, sub.display_name⟩) }

/-- The update applied when an external subtitle registers an episode for a
language for the first time: add the episode id to the unique and external
id sets and push the detail entry. -/
def extAddData (epId : String) (info : EpisodeInfo) (d : LangData) : LangData :=
  { d with
    episode_ids := setAdd d.episode_ids epId
    external_ids := setAdd d.external_ids epId
    episode_details := d.episode_details ++ [info] }

/-- The update applied when an embedded subtitle is seen for a language the
episode is already registered under: only the embedded id set grows. -/
def embAddSeen (epId : String) (d : LangData) : LangData :=
  { d with embedded_ids := setAdd d.embedded_ids epId }

/-- The update applied when an embedded subtitle registers an episode for a
language for the first time. -/
def embAddNew (epId : String) (info : EpisodeInfo) (d : LangData) : LangData :=
  { d with
    episode_ids := setAdd d.episode_ids epId
    embedded_ids := setAdd d.embedded_ids epId
    episode_details := d.episode_details ++ [info] }

/-- Processing of one external subtitle entry: dual outputs are skipped, and
the episode is registered once per language, guarded by the per-episode
language set. -/
def processExternalSub (epId : String) (info : EpisodeInfo)
    (st : LangMap × List String) (sub : ExternalSub) : LangMap × List String :=
  if sub.is_dual_subtitle then st
  else
    let langCode := normCode sub.language_code
    if langCode ∈ st.2 then st
    else
      (updateLang st.1 langCode (extAddData epId info), st.2 ++ [langCode])

/-- Processing of one embedded subtitle entry: the embedded id set is always
updated, while the unique episode id set and the detail list are only touched
when the language was not already registered for this episode. -/
def processEmbeddedSub (epId : String) (info : EpisodeInfo)
    (st : LangMap × List String) (sub : EmbeddedSub) : LangMap × List String :=
  let langCode := normCode sub.languageCode
  if langCode ∈ st.2 then
    (updateLang st.1 langCode (embAddSeen epId), st.2)
  else
    (updateLang st.1 langCode (embAddNew epId info), st.2 ++ [langCode])

/-- Processing of one episode of the analysis: a failed subtitle fetch is
ignored, external entries are processed first, then embedded entries, with a
fresh per-episode language set. -/
def processEpisode (m : LangMap) (episode : Episode)
    (subtitlesOpt : Option EpisodeSubtitles) : LangMap :=
  match subtitlesOpt with
  | none => m
  | some subtitles =>
    let info := mkEpisodeInfo episode subtitles
    let st1 := subtitles.external_subtitles.foldl (processExternalSub episode.id info) (m, [])
    let st2 := subtitles.embedded_subtitles.foldl (processEmbeddedSub episode.id info) st1
    st2.1

/-- The aggregation core of getSubtitleAnalysis over all episodes of a show,
paired with their fetched subtitle listings. -/
def analyzeAvailability (eps : List (Episode × Option EpisodeSubtitles)) : LangMap :=
  eps.foldl (fun m pr => processEpisode m pr.1 pr.2) (fun _ => emptyLangData)

/-- The final conversion of one aggregation state into the availability record
exposed per language: set sizes become counts. -/
def finalizeAvailability (langCode : String) (d : LangData) : Availability :=
  { name := getLanguageName langCode
    episodes_available := d.episode_ids.length
    episodes_with_external := d.external_ids.length
    episodes_with_embedded := d.embedded_ids.length
    episode_details := d.episode_details }

/-- The statistics record of the EpisodePreviewStep. -/
structure BulkStats where
  ready : Int
  needsAttention : Int
  willSkip : Int
  alreadyExists : Int
deriving DecidableEq, Repr

/-- The stats useMemo of the EpisodePreviewStep: intersect the two detail
lists, split off the episodes already carrying the requested dual pair, and
derive the four counters. -/
def computeStats (analysis : SubtitleAnalysis) (primaryLanguage secondaryLanguage : String) :
    BulkStats :=
  match jsLookup analysis.language_availability primaryLanguage,
        jsLookup analysis.language_availability secondaryLanguage with
  | some primaryAvail, some secondaryAvail =>
    let episodesWithBoth := episodesWithBothLangs primaryAvail secondaryAvail
    let episodesWithExistingDual := episodesWithBoth.filter (fun ep =>
      ep.existing_dual_subtitles.any (dualMatches primaryLanguage secondaryLanguage))
    let alreadyExists : Int := episodesWithExistingDual.length
    let ready : Int := (episodesWithBoth.length : Int) - alreadyExists
    let maxAvailable : Int :=
      max (primaryAvail.episodes_available : Int) (secondaryAvail.episodes_available : Int)
    let needsAttention : Int := maxAvailable - (episodesWithBoth.length : Int)
    let willSkip : Int := (analysis.total_episodes : Int) - maxAvailable
    ⟨ready, needsAttention, willSkip, alreadyExists⟩
  | _, _ => ⟨0, 0, (analysis.total_episodes : Int), 0⟩

/-- The number of episodes present in exactly one of the two availability
detail lists, stated from the specification words for comparison with the
computed needsAttention counter. -/
def exactlyOneCount (primaryAvail secondaryAvail : Availability) : Nat :=
  (primaryAvail.episode_details.filter (fun ep =>
    ¬ secondaryAvail.episode_details.any (fun e2 => e2.episode_id = ep.episode_id))).length
  + (secondaryAvail.episode_details.filter (fun ep =>
    ¬ primaryAvail.episode_details.any (fun e2 => e2.episode_id = ep.episode_id))).length

/-- The code group shapes of the five filename patterns: two letters, two
letters dash two letters, or three letters, all case-insensitive. -/
inductive CodeShape where
  | two
  | twoDashTwo
  | three
deriving DecidableEq, Repr

/-- Consume the code group of one pattern from the character list, returning
the captured characters and the remainder. -/
def takeCode : CodeShape → List Char → Option (List Char × List Char)
  | .two, a :: b :: rest =>
      if a.isAlpha && b.isAlpha then some ([a, b], rest) else none
  | .twoDashTwo, a :: b :: d :: c :: e :: rest =>
      if a.isAlpha && b.isAlpha && d = '-' && c.isAlpha && e.isAlpha then
        some ([a, b, d, c, e], rest)
      else none
  | .three, a :: b :: c :: rest =>
      if a.isAlpha && b.isAlpha && c.isAlpha then some ([a, b, c], rest) else none
  | _, _ => none

/-- The end-anchored extension alternation of every pattern, matched
case-insensitively against the whole remainder of the filename. -/
def extOk (l : List Char) : Bool :=
  l.map Char.toLower = "srt".toList ∨ l.map Char.toLower = "ass".toList ∨
    l.map Char.toLower = "vtt".toList ∨ l.map Char.toLower = "sub".toList

/-- Match one pattern at the current position: the separator, the code group,
a dot, and the extension running to the end of the filename. -/
def matchHere (sep : Char) (cs : CodeShape) (l : List Char) : Option (List Char) :=
  match l with
  | [] => none
  | c :: rest =>
    if c = sep then
      match takeCode cs rest with
      | some (code, rest2) =>
        match rest2 with
        | d :: ext => if d = '.' ∧ extOk ext then some code else none
        | [] => none
      | none => none
    else none

/-- Regular-expression search: try the pattern at every position from the left
and return the first capture. -/
def scanMatch (sep : Char) (cs : CodeShape) : List Char → Option (List Char)
  | [] => none
  | c :: rest =>
    match matchHere sep cs (c :: rest) with
    | some code => some code
    | none => scanMatch sep cs rest

/-- Lower-case a captured code group, as the detector applies toLowerCase to
every match. -/
def lowerCode (code : List Char) : String := String.mk (code.map Char.toLower)

/-- extractLanguageFromFilename: the five suffix patterns are tried in
declaration order and the first successful capture wins, lower-cased; with no
match the result is null. -/
def extractLanguageFromFilename (filename : String) : Option String :=
  let l := filename.toList
  match scanMatch '.' .two l with
  | some code => some (lowerCode code)
  | none =>
    match scanMatch '.' .twoDashTwo l with
    | some code => some (lowerCode code)
    | none =>
      match scanMatch '.' .three l with
      | some code => some (lowerCode code)
      | none =>
        match scanMatch '_' .two l with
        | some code => some (lowerCode code)
        | none =>
          match scanMatch '-' .two l with
          | some code => some (lowerCode code)
          | none => none

/-- The separator and code shape of each of the five patterns, in their
declaration order. -/
def patternShapes : List (Char × CodeShape) :=
  [('.', .two), ('.', .twoDashTwo), ('.', .three), ('_', .two), ('-', .two)]

/-- Whether a code group satisfies the shape of a pattern. -/
def shapeOk : CodeShape → List Char → Bool
  | .two, [a, b] => a.isAlpha && b.isAlpha
  | .twoDashTwo, [a, b, d, c, e] =>
      a.isAlpha && b.isAlpha && d = '-' && c.isAlpha && e.isAlpha
  | .three, [a, b, c] => a.isAlpha && b.isAlpha && c.isAlpha
  | _, _ => false

/-- Declarative reading of the spec sentence: some language-suffix pattern
matches the filename, that is, the filename decomposes as an arbitrary head,
a pattern separator, a well-shaped code group, a dot, and a subtitle
extension that runs to the end. -/
def hasLanguageSuffix (l : List Char) : Prop :=
  ∃ pr ∈ patternShapes, ∃ u code ext,
    l = u ++ pr.1 :: (code ++ '.' :: ext) ∧ shapeOk pr.2 code = true ∧ extOk ext = true

def c8DualEnJa : ExternalSub :=
  { file_path := "/subs/ep.en-ja.dual.srt", file_name := "ep.en-ja.dual.srt",
    language_code := none, is_dual_subtitle := true, dual_languages := some ["en", "ja"] }

def c8Info (i : Nat) : EpisodeInfo :=
  { episode_id := "ep" ++ toString i, season_episode := "S01E" ++ toString i,
    title := "Episode " ++ toString i, has_external := true, has_embedded := false,
    existing_dual_subtitles := if i ≤ 2 then [c8DualEnJa] else [],
    embedded_streams := [] }

def c8EnDetails : List EpisodeInfo := (List.range 24).map (fun i => c8Info (i + 1))

def c8JaDetails : List EpisodeInfo := (List.range 22).map (fun i => c8Info (i + 1))

def c8Analysis : SubtitleAnalysis :=
  { total_episodes := 24,
    language_availability :=
      [("en", { name := "English", episodes_available := 24, episodes_with_external := 20,
                episodes_with_embedded := 4, episode_details := c8EnDetails }),
       ("ja", { name := "Japanese", episodes_available := 22, episodes_with_external := 18,
                episodes_with_embedded := 4, episode_details := c8JaDetails })] }

def c3InfoA : EpisodeInfo :=
  { episode_id := "a", season_episode := "S01E01", title := "A", has_external := true,
    has_embedded := false, existing_dual_subtitles := [], embedded_streams := [] }

def c3InfoB : EpisodeInfo :=
  { episode_id := "b", season_episode := "S01E02", title := "B", has_external := true,
    has_embedded := false, existing_dual_subtitles := [], embedded_streams := [] }

def c3AvailEn : Availability :=
  { name := "English", episodes_available := 1, episodes_with_external := 1,
    episodes_with_embedded := 0, episode_details := [c3InfoA] }

def c3AvailJa : Availability :=
  { name := "Japanese", episodes_available := 1, episodes_with_external := 1,
    episodes_with_embedded := 0, episode_details := [c3InfoB] }

def c3Analysis : SubtitleAnalysis :=
  { total_episodes := 2,
    language_availability := [("en", c3AvailEn), ("ja", c3AvailJa)] }

def outcomeId : TaskOutcome → String
  | .succeeded e _ => e.episode_id
  | .taskFailed e => e.episode_id
  | .taskSkipped e => e.episode_id

def successEntryOf : TaskOutcome → Option SuccessEntry
  | .succeeded e _ => some e
  | _ => none

def failEntryOf : TaskOutcome → Option FailEntry
  | .taskFailed e => some e
  | _ => none

def skipEntryOf : TaskOutcome → Option SkipEntry
  | .succeeded _ _ => none
  | .taskFailed _ => none
  | .taskSkipped e => some e

def durationOf : TaskOutcome → Option Nat
  | .succeeded _ d => some d
  | _ => none

def successfulDurations (env : ExecEnv) (p s : String) (styling : StylingConfig)
    (tasks : List EpisodeInfo) : List Nat :=
  tasks.filterMap (fun ep => durationOf (taskOutcome env p s styling ep))

def reportsAux (env : ExecEnv) (p s : String) (styling : StylingConfig) (total : Nat) :
    List EpisodeInfo → Nat → List Nat → List ProgressReport
  | [], _, _ => []
  | ep :: rest, i, times =>
      mkReport i total ep times ::
        reportsAux env p s styling total rest (i + 1)
          (match taskOutcome env p s styling ep with
            | .succeeded _ d => times ++ [d]
            | _ => times)

def resultIds (r : BulkResults) : List String :=
  r.successful.map (fun x => x.episode_id) ++ r.failed.map (fun x => x.episode_id) ++
    r.skipped.map (fun x => x.episode_id)

def qualifiesExternal (L : String) (subs : EpisodeSubtitles) : Bool :=
  subs.external_subtitles.any
    (fun sub => !sub.is_dual_subtitle && decide (normCode sub.language_code = L))

def qualifiesEmbedded (L : String) (subs : EpisodeSubtitles) : Bool :=
  subs.embedded_subtitles.any (fun sub => decide (normCode sub.languageCode = L))

def qualAvailable (L : String) (pr : Episode × Option EpisodeSubtitles) : Bool :=
  match pr.2 with
  | none => false
  | some subs => qualifiesExternal L subs || qualifiesEmbedded L subs

def qualExternal (L : String) (pr : Episode × Option EpisodeSubtitles) : Bool :=
  match pr.2 with
  | none => false
  | some subs => qualifiesExternal L subs

def qualEmbedded (L : String) (pr : Episode × Option EpisodeSubtitles) : Bool :=
  match pr.2 with
  | none => false
  | some subs => qualifiesEmbedded L subs

def detailEntryOf (L : String) (pr : Episode × Option EpisodeSubtitles) : Option EpisodeInfo :=
  match pr.2 with
  | none => none
  | some subs =>
    if qualifiesExternal L subs || qualifiesEmbedded L subs then
      some (mkEpisodeInfo pr.1 subs)
    else none

def wSty : StylingConfig :=
  { primary_position := "bottom", secondary_position := "top", primary_color := "white",
    secondary_color := "yellow", primary_font_size := 16, secondary_font_size := 14 }

def mkInfoBasic (eid se ti : String) (duals : List ExternalSub) : EpisodeInfo :=
  { episode_id := eid, season_episode := se, title := ti, has_external := true,
    has_embedded := false, existing_dual_subtitles := duals, embedded_streams := [] }

def w1e1 : EpisodeInfo := mkInfoBasic "e1" "S01E01" "One" []

def w1e2 : EpisodeInfo := mkInfoBasic "e2" "S01E02" "Two" []

def w1Pa : Availability :=
  { name := "English", episodes_available := 2, episodes_with_external := 2,
    episodes_with_embedded := 0, episode_details := [w1e1, w1e2] }

def w1Sa : Availability :=
  { name := "Japanese", episodes_available := 2, episodes_with_external := 2,
    episodes_with_embedded := 0, episode_details := [w1e1, w1e2] }

def w1Analysis : SubtitleAnalysis :=
  { total_episodes := 2, language_availability := [("en", w1Pa), ("ja", w1Sa)] }

def w1Ext (lang path : String) : ExternalSub :=
  { file_path := path, file_name := path, language_code := some lang,
    is_dual_subtitle := false, dual_languages := none }

def w1Subs : EpisodeSubtitles :=
  { external_subtitles := [w1Ext "en" "/tv/e1.en.srt", w1Ext "ja" "/tv/e1.ja.srt"],
    embedded_subtitles := [] }

def w1Env : ExecEnv :=
  { subs := fun eid => if eid = "e1" then .ok w1Subs else .ok ⟨[], []⟩
    create := fun eid _ => if eid = "e1" then .ok ⟨"/tv/e1.en-ja.dual.srt"⟩
      else .error ⟨"boom", none, some 500, none⟩
    duration := fun _ => 30000 }

def w1Res : BulkResults :=
  { successful := [⟨"e1", "/tv/e1.en-ja.dual.srt", "One"⟩], failed := [],
    skipped := [⟨"e2", "Missing en subtitle"⟩] }

def w1Reports : List ProgressReport :=
  [mkReport 0 2 w1e1 [], mkReport 1 2 w1e2 [30000], finalReport 2]

def c2Dual : ExternalSub :=
  { file_path := "/tv/e1.en-ja.dual.srt", file_name := "e1.en-ja.dual.srt",
    language_code := none, is_dual_subtitle := true, dual_languages := some ["en", "ja"] }

def c2e1 : EpisodeInfo := mkInfoBasic "e1" "S01E01" "One" [c2Dual]

def c2Pa : Availability :=
  { name := "English", episodes_available := 1, episodes_with_external := 1,
    episodes_with_embedded := 0, episode_details := [c2e1] }

def c2Sa : Availability :=
  { name := "Japanese", episodes_available := 1, episodes_with_external := 1,
    episodes_with_embedded := 0, episode_details := [c2e1] }

def c2Analysis : SubtitleAnalysis :=
  { total_episodes := 1, language_availability := [("en", c2Pa), ("ja", c2Sa)] }

def c5e1 : EpisodeInfo := mkInfoBasic "e1" "S01E01" "One" []

def c5Pa : Availability :=
  { name := "English", episodes_available := 1, episodes_with_external := 1,
    episodes_with_embedded := 0, episode_details := [c5e1] }

def c5Sa : Availability :=
  { name := "Japanese", episodes_available := 1, episodes_with_external := 1,
    episodes_with_embedded := 0, episode_details := [c5e1] }

def c5Analysis : SubtitleAnalysis :=
  { total_episodes := 1, language_availability := [("en", c5Pa), ("ja", c5Sa)] }

def c5Env : ExecEnv :=
  { subs := fun _ => .ok ⟨[], []⟩
    create := fun _ _ => .error ⟨"never reached", none, none, none⟩
    duration := fun _ => 0 }

def w5Subs : EpisodeSubtitles :=
  { external_subtitles := [],
    embedded_subtitles := [⟨3, some "en", "English"⟩, ⟨4, some "ja", "Japanese"⟩] }

def w5bSubs : EpisodeSubtitles :=
  { external_subtitles := [w1Ext "en" "/tv/e1.en.srt"], embedded_subtitles := [] }

def w5bEnv : ExecEnv :=
  { subs := fun _ => .ok w5bSubs
    create := fun _ _ => .error ⟨"never reached", none, none, none⟩
    duration := fun _ => 0 }

def c6e1 : EpisodeInfo := mkInfoBasic "e1" "S01E01" "One" []

def c6Pa : Availability :=
  { name := "English", episodes_available := 1, episodes_with_external := 1,
    episodes_with_embedded := 0, episode_details := [c6e1] }

def c6Sa : Availability :=
  { name := "Japanese", episodes_available := 1, episodes_with_external := 1,
    episodes_with_embedded := 0, episode_details := [c6e1] }

def c6Analysis : SubtitleAnalysis :=
  { total_episodes := 1, language_availability := [("en", c6Pa), ("ja", c6Sa)] }

def c6Subs : EpisodeSubtitles :=
  { external_subtitles := [w1Ext "en" "/tv/e1.en.srt", w1Ext "ja" "/tv/e1.ja.srt"],
    embedded_subtitles := [] }

def c6Env : ExecEnv :=
  { subs := fun _ => .ok c6Subs
    create := fun _ _ => .error ⟨"boom", none, none, none⟩
    duration := fun _ => 60000 }

def w3a : EpisodeInfo := mkInfoBasic "a" "S01E01" "A" []

def w3b : EpisodeInfo := mkInfoBasic "b" "S01E02" "B" []

def w3Pa : Availability :=
  { name := "English", episodes_available := 2, episodes_with_external := 2,
    episodes_with_embedded := 0, episode_details := [w3a, w3b] }

def w3Sa : Availability :=
  { name := "Japanese", episodes_available := 1, episodes_with_external := 1,
    episodes_with_embedded := 0, episode_details := [w3a] }

def w3Analysis : SubtitleAnalysis :=
  { total_episodes := 3, language_availability := [("en", w3Pa), ("ja", w3Sa)] }

def w4ep1 : Episode := ⟨"e1", "S01E01", "One"⟩

def w4ep2 : Episode := ⟨"e2", "S01E02", "Two"⟩

def w4ep3 : Episode := ⟨"e3", "S01E03", "Three"⟩

def w4subs1 : EpisodeSubtitles :=
  { external_subtitles := [w1Ext "en" "/tv/e1.en.srt", c2Dual],
    embedded_subtitles := [⟨2, some "ja", "Japanese"⟩] }

def w4subs2 : EpisodeSubtitles :=
  { external_subtitles := [], embedded_subtitles := [⟨1, some "en", "English"⟩] }

def w4eps : List (Episode × Option EpisodeSubtitles) :=
  [(w4ep1, some w4subs1), (w4ep2, some w4subs2), (w4ep3, none)]

/-- C9: getLanguageName maps the code hi to Hearing Impaired rather than to
Hindi, and every other code absent from its name table is returned converted
to upper case. -/
theorem getLanguageName_hi_and_fallback :
    getLanguageName "hi" = "Hearing Impaired" ∧
      ∀ code : String, code ≠ "hi" → jsLookup languagesTable code = none →
        getLanguageName code = code.toUpper := by
  constructor
  · rfl
  · intro code hne hlk
    unfold getLanguageName
    rw [if_neg hne, hlk]
    rfl

/-- Witness for C9 at the unmapped code xx. -/
theorem getLanguageName_fallback_witness :
    ("xx" : String) ≠ "hi" ∧ jsLookup languagesTable "xx" = none ∧
      getLanguageName "xx" = ("xx" : String).toUpper :=
  ⟨by decide, by rfl, getLanguageName_hi_and_fallback.2 "xx" (by decide) (by rfl)⟩

/-- C7: the estimated remaining time is a function only of the multiset of
recorded durations and the remaining task count: permuting the recorded
durations leaves it unchanged. -/
theorem estimateRemainingMs_perm_invariant (times times' : List Nat) (remaining : Nat)
    (h : times.Perm times') :
    estimateRemainingMs times remaining = estimateRemainingMs times' remaining := by
  unfold estimateRemainingMs averageTimePerEpisodeMs
  by_cases hnil : times = []
  · subst hnil
    rw [h.symm.eq_nil]
  · have hnil' : times' ≠ [] := by
      intro e; subst e; exact hnil h.eq_nil
    rw [if_neg hnil, if_neg hnil', h.sum_eq, h.length_eq]

/-- Witness for C7 on a concrete two-element permutation. -/
theorem estimateRemainingMs_perm_witness :
    estimateRemainingMs [1000, 3000] 5 = estimateRemainingMs [3000, 1000] 5 :=
  estimateRemainingMs_perm_invariant [1000, 3000] [3000, 1000] 5 (by decide)

/-- C8: on the concrete 24-episode scenario with English available in all 24,
Japanese in 22, and two of those 22 already carrying an EN plus JA dual
output, the preview statistics are ready 20, needsAttention 2, willSkip 0 and
alreadyExists 2. -/
theorem c8_scenario : computeStats c8Analysis "en" "ja" = ⟨20, 2, 0, 2⟩ := by decide

/-- C3 counterexample: with disjoint singleton availabilities, needsAttention
is 1 while the number of episodes available in exactly one of the two
languages is 2, refuting the claimed equality. -/
theorem needsAttention_not_exactly_one_cex :
    jsLookup c3Analysis.language_availability "en" = some c3AvailEn ∧
    jsLookup c3Analysis.language_availability "ja" = some c3AvailJa ∧
    (computeStats c3Analysis "en" "ja").needsAttention = 1 ∧
    exactlyOneCount c3AvailEn c3AvailJa = 2 ∧
    (1 : Int) ≠ (2 : Nat) := by decide

lemma any_id_eq_mem (S : List EpisodeInfo) (x : String) :
    S.any (fun e2 => e2.episode_id = x) = decide (x ∈ S.map (fun e => e.episode_id)) := by
  rw [Bool.eq_iff_iff]
  simp only [List.any_eq_true, decide_eq_true_eq, List.mem_map]

lemma filter_by_id_length (P : List EpisodeInfo) (q : String → Bool) :
    (P.filter (fun ep => q ep.episode_id)).length = ((P.map (fun e => e.episode_id)).filter q).length := by
  induction P with
  | nil => rfl
  | cons a t ih =>
    by_cases h : q a.episode_id = true
    · simp [List.filter_cons, h, ih]
    · simp [List.filter_cons, h, ih]

lemma nodup_filter_length_card (L : List String) (p : String → Bool) (h : L.Nodup) :
    (L.filter p).length = (L.toFinset.filter (p ·)).card := by
  rw [← List.toFinset_filter, List.toFinset_card_of_nodup (h.filter p)]

lemma both_len_card (pa sa : Availability)
    (hnp : (pa.episode_details.map (fun e => e.episode_id)).Nodup) :
    (episodesWithBothLangs pa sa).length =
      ((pa.episode_details.map (fun e => e.episode_id)).toFinset ∩
       (sa.episode_details.map (fun e => e.episode_id)).toFinset).card := by
  unfold episodesWithBothLangs
  have h1 : (pa.episode_details.filter (fun ep =>
      sa.episode_details.any (fun secEp => secEp.episode_id = ep.episode_id))).length
      = (pa.episode_details.filter (fun ep =>
      decide (ep.episode_id ∈ sa.episode_details.map (fun e => e.episode_id)))).length := by
    congr 1
    apply List.filter_congr
    intro a _
    exact any_id_eq_mem sa.episode_details a.episode_id
  rw [h1,
    filter_by_id_length pa.episode_details
      (fun x => decide (x ∈ sa.episode_details.map (fun e => e.episode_id))),
    nodup_filter_length_card _ _ hnp]
  congr 1
  ext x
  simp

lemma exactly_one_card (pa sa : Availability)
    (hnp : (pa.episode_details.map (fun e => e.episode_id)).Nodup)
    (hns : (sa.episode_details.map (fun e => e.episode_id)).Nodup) :
    exactlyOneCount pa sa =
      ((pa.episode_details.map (fun e => e.episode_id)).toFinset \
       (sa.episode_details.map (fun e => e.episode_id)).toFinset).card +
      ((sa.episode_details.map (fun e => e.episode_id)).toFinset \
       (pa.episode_details.map (fun e => e.episode_id)).toFinset).card := by
  unfold exactlyOneCount
  have key : ∀ (P S : List EpisodeInfo),
      (P.map (fun e => e.episode_id)).Nodup →
      (P.filter (fun ep => ¬ S.any (fun e2 => e2.episode_id = ep.episode_id))).length =
        ((P.map (fun e => e.episode_id)).toFinset \
         (S.map (fun e => e.episode_id)).toFinset).card := by
    intro P S hn
    have h1 : (P.filter (fun ep => ¬ S.any (fun e2 => e2.episode_id = ep.episode_id))).length
        = (P.filter (fun ep =>
            decide (ep.episode_id ∉ S.map (fun e => e.episode_id)))).length := by
      congr 1
      apply List.filter_congr
      intro a _
      rw [Bool.eq_iff_iff]
      simp only [decide_eq_true_eq, List.any_eq_true, List.mem_map, not_exists, not_and]
    rw [h1, filter_by_id_length P (fun x => decide (x ∉ S.map (fun e => e.episode_id))),
      nodup_filter_length_card _ _ hn]
    congr 1
    ext x
    simp
  rw [key pa.episode_details sa.episode_details hnp,
    key sa.episode_details pa.episode_details hns]

/-- C3 amended: needsAttention always equals the maximum of the two
availability counts minus the size of the intersection; it equals the number
of episodes available in exactly one language precisely under the additional
assumption that one of the two availability episode sets contains the other
(with consistent counts and duplicate-free ids). -/
theorem needsAttention_amended (analysis : SubtitleAnalysis) (p s : String)
    (pa sa : Availability)
    (hp : jsLookup analysis.language_availability p = some pa)
    (hs : jsLookup analysis.language_availability s = some sa)
    (hcp : pa.episodes_available = pa.episode_details.length)
    (hcs : sa.episodes_available = sa.episode_details.length)
    (hnp : (pa.episode_details.map (fun e => e.episode_id)).Nodup)
    (hns : (sa.episode_details.map (fun e => e.episode_id)).Nodup)
    (hsub : (∀ x ∈ sa.episode_details.map (fun e => e.episode_id),
               x ∈ pa.episode_details.map (fun e => e.episode_id))
          ∨ (∀ x ∈ pa.episode_details.map (fun e => e.episode_id),
               x ∈ sa.episode_details.map (fun e => e.episode_id))) :
    (computeStats analysis p s).needsAttention =
      max (pa.episodes_available : Int) (sa.episodes_available : Int)
        - ((episodesWithBothLangs pa sa).length : Int) ∧
    (computeStats analysis p s).needsAttention = (exactlyOneCount pa sa : Int) := by
  have hval : (computeStats analysis p s).needsAttention =
      max (pa.episodes_available : Int) (sa.episodes_available : Int)
        - ((episodesWithBothLangs pa sa).length : Int) := by
    unfold computeStats
    rw [hp, hs]
  refine ⟨hval, ?_⟩
  rw [hval]
  set FP := (pa.episode_details.map (fun e => e.episode_id)).toFinset with hFP
  set FS := (sa.episode_details.map (fun e => e.episode_id)).toFinset with hFS
  have hcardP : pa.episode_details.length = FP.card := by
    rw [hFP, List.toFinset_card_of_nodup hnp, List.length_map]
  have hcardS : sa.episode_details.length = FS.card := by
    rw [hFS, List.toFinset_card_of_nodup hns, List.length_map]
  rw [both_len_card pa sa hnp, exactly_one_card pa sa hnp hns, hcp, hcs, hcardP, hcardS]
  have hsub2 : FS ⊆ FP ∨ FP ⊆ FS := by
    rcases hsub with h | h
    · left; intro x hx
      rw [List.mem_toFinset] at hx ⊢
      exact h x hx
    · right; intro x hx
      rw [List.mem_toFinset] at hx ⊢
      exact h x hx
  rcases hsub2 with hss | hss
  · have hinter : FP ∩ FS = FS := Finset.inter_eq_right.mpr hss
    have hsd : FS \ FP = ∅ := Finset.sdiff_eq_empty_iff_subset.mpr hss
    have hcard : (FP \ FS).card = FP.card - FS.card := Finset.card_sdiff hss
    have hle : FS.card ≤ FP.card := Finset.card_le_card hss
    rw [hinter, hsd, hcard]
    simp only [Finset.card_empty]
    omega
  · have hinter : FP ∩ FS = FP := Finset.inter_eq_left.mpr hss
    have hsd : FP \ FS = ∅ := Finset.sdiff_eq_empty_iff_subset.mpr hss
    have hcard : (FS \ FP).card = FS.card - FP.card := Finset.card_sdiff hss
    have hle : FP.card ≤ FS.card := Finset.card_le_card hss
    rw [hinter, hsd, hcard]
    simp only [Finset.card_empty]
    omega

lemma shapeOk_two_length (code : List Char) (h : shapeOk .two code = true) :
    code.length = 2 := by
  rcases code with _ | ⟨a, _ | ⟨b, _ | ⟨c, t⟩⟩⟩ <;> simp [shapeOk] at h ⊢

lemma extOk_length (l : List Char) (h : extOk l = true) : l.length = 3 := by
  unfold extOk at h
  simp only [decide_eq_true_eq] at h
  rcases h with h | h | h | h <;>
    · have := congrArg List.length h
      simpa using this

lemma takeCode_spec (cs : CodeShape) (l code rest : List Char)
    (h : takeCode cs l = some (code, rest)) :
    l = code ++ rest ∧ shapeOk cs code = true := by
  cases cs with
  | two =>
    rcases l with _ | ⟨a, _ | ⟨b, t⟩⟩ <;> simp [takeCode] at h
    rcases h with ⟨hab, hc, hr⟩
    subst hc; subst hr
    simp only [shapeOk, Bool.and_eq_true, decide_eq_true_eq, List.cons_append,
      List.nil_append, true_and, and_true]
    tauto
  | twoDashTwo =>
    rcases l with _ | ⟨a, _ | ⟨b, _ | ⟨d, _ | ⟨c, _ | ⟨e, t⟩⟩⟩⟩⟩ <;> simp [takeCode] at h
    rcases h with ⟨hab, hc, hr⟩
    subst hc; subst hr
    simp only [shapeOk, Bool.and_eq_true, decide_eq_true_eq, List.cons_append,
      List.nil_append, true_and, and_true]
    tauto
  | three =>
    rcases l with _ | ⟨a, _ | ⟨b, _ | ⟨c, t⟩⟩⟩ <;> simp [takeCode] at h
    rcases h with ⟨hab, hc, hr⟩
    subst hc; subst hr
    simp only [shapeOk, Bool.and_eq_true, decide_eq_true_eq, List.cons_append,
      List.nil_append, true_and, and_true]
    tauto

lemma matchHere_some (sep : Char) (cs : CodeShape) (l code : List Char)
    (h : matchHere sep cs l = some code) :
    ∃ ext, l = sep :: (code ++ '.' :: ext) ∧ shapeOk cs code = true ∧ extOk ext = true := by
  unfold matchHere at h
  split at h
  · exact absurd h (by simp)
  next c rest =>
    split at h
    next hc =>
      subst hc
      split at h
      next code2 rest2 htc =>
        split at h
        next d ext =>
          split at h
          next hde =>
            obtain ⟨hd, he⟩ := hde
            subst hd
            obtain hcode : code2 = code := by simpa using h
            subst hcode
            obtain ⟨hl, hshape⟩ := takeCode_spec cs rest code2 _ htc
            refine ⟨ext, ?_, hshape, he⟩
            rw [hl]
          · exact absurd h (by simp)
        · exact absurd h (by simp)
      · exact absurd h (by simp)
    · exact absurd h (by simp)

lemma scanMatch_some (sep : Char) (cs : CodeShape) :
    ∀ (l code : List Char), scanMatch sep cs l = some code →
      ∃ u v, l = u ++ v ∧ matchHere sep cs v = some code := by
  intro l
  induction l with
  | nil => intro code h; simp [scanMatch] at h
  | cons c rest ih =>
    intro code h
    unfold scanMatch at h
    rcases hm : matchHere sep cs (c :: rest) with _ | code2
    · rw [hm] at h
      obtain ⟨u, v, hl, hv⟩ := ih code h
      exact ⟨c :: u, v, by rw [hl]; rfl, hv⟩
    · rw [hm] at h
      obtain hcode : code2 = code := by simpa using h
      subst hcode
      exact ⟨[], c :: rest, rfl, hm⟩

lemma scanMatch_drop_none (sep : Char) (cs : CodeShape) :
    ∀ (u v : List Char),
      (∀ k, k < u.length → matchHere sep cs (u.drop k ++ v) = none) →
      scanMatch sep cs (u ++ v) = scanMatch sep cs v := by
  intro u
  induction u with
  | nil => intro v _; rfl
  | cons c u2 ih =>
    intro v hk
    have h0 : matchHere sep cs (c :: (u2 ++ v)) = none := by
      have h1 := hk 0 (by simp)
      rw [List.drop_zero, List.cons_append] at h1
      exact h1
    have hstep : scanMatch sep cs ((c :: u2) ++ v) = scanMatch sep cs (u2 ++ v) := by
      rw [List.cons_append]
      conv_lhs => rw [scanMatch]
      rw [h0]
    rw [hstep]
    apply ih
    intro k hklt
    have := hk (k + 1) (by simpa using Nat.succ_lt_succ hklt)
    simpa using this

lemma matchHere_two_length (l code : List Char)
    (h : matchHere '.' .two l = some code) : l.length = 7 := by
  obtain ⟨ext, hl, hshape, hext⟩ := matchHere_some '.' CodeShape.two l code h
  have h2 := shapeOk_two_length code hshape
  have h3 := extOk_length ext hext
  rw [hl]
  simp [h2, h3]

lemma shapeOk_length (cs : CodeShape) (code : List Char) (h : shapeOk cs code = true) :
    2 ≤ code.length := by
  cases cs <;>
    rcases code with _ | ⟨a, _ | ⟨b, _ | ⟨c, _ | ⟨d, _ | ⟨e, _ | ⟨g, t⟩⟩⟩⟩⟩⟩ <;>
    simp [shapeOk] at h ⊢

lemma hasLanguageSuffix_length (l : List Char) (h : hasLanguageSuffix l) : 7 ≤ l.length := by
  obtain ⟨pr, hpr, u, code, ext, heq, hshape, hext⟩ := h
  have h1 := shapeOk_length pr.2 code hshape
  have h2 := extOk_length ext hext
  rw [heq]
  simp only [List.length_append, List.length_cons]
  omega

lemma suffix_of_scan (sep : Char) (cs : CodeShape) (hpat : (sep, cs) ∈ patternShapes)
    (l code : List Char) (h : scanMatch sep cs l = some code) : hasLanguageSuffix l := by
  obtain ⟨u, v, hl, hv⟩ := scanMatch_some sep cs l code h
  obtain ⟨ext, hveq, hshape, hext⟩ := matchHere_some sep cs v code hv
  exact ⟨(sep, cs), hpat, u, code, ext, by rw [hl, hveq], hshape, hext⟩

lemma extract_some_suffix (f : String) (code : String)
    (h : extractLanguageFromFilename f = some code) : hasLanguageSuffix f.toList := by
  simp only [extractLanguageFromFilename] at h
  rcases h1 : scanMatch '.' .two f.toList with _ | c1
  · rw [h1] at h
    rcases h2 : scanMatch '.' .twoDashTwo f.toList with _ | c2
    · rw [h2] at h
      rcases h3 : scanMatch '.' .three f.toList with _ | c3
      · rw [h3] at h
        rcases h4 : scanMatch '_' .two f.toList with _ | c4
        · rw [h4] at h
          rcases h5 : scanMatch '-' .two f.toList with _ | c5
          · rw [h5] at h; simp at h
          · exact suffix_of_scan '-' .two (by simp [patternShapes]) _ c5 h5
        · exact suffix_of_scan '_' .two (by simp [patternShapes]) _ c4 h4
      · exact suffix_of_scan '.' .three (by simp [patternShapes]) _ c3 h3
    · exact suffix_of_scan '.' .twoDashTwo (by simp [patternShapes]) _ c2 h2
  · exact suffix_of_scan '.' .two (by simp [patternShapes]) _ c1 h1

lemma extract_stacked_codes (pre c1 c2 ext : List Char)
    (hc2 : shapeOk .two c2 = true) (hext : extOk ext = true) :
    extractLanguageFromFilename
      (String.mk (pre ++ ('.' :: (c1 ++ ('.' :: (c2 ++ ('.' :: ext))))))) =
      some (lowerCode c2) := by
  obtain ⟨a, b, hab, hc2eq⟩ : ∃ a b, (a.isAlpha && b.isAlpha) = true ∧ c2 = [a, b] := by
    rcases c2 with _ | ⟨a, _ | ⟨b, _ | ⟨c, t⟩⟩⟩ <;> simp [shapeOk] at hc2 ⊢
    exact hc2
  have hlist : (String.mk (pre ++ ('.' :: (c1 ++ ('.' :: (c2 ++ ('.' :: ext))))))).toList
      = (pre ++ ('.' :: c1)) ++ ('.' :: (c2 ++ ('.' :: ext))) := by
    show pre ++ ('.' :: (c1 ++ ('.' :: (c2 ++ ('.' :: ext)))))
        = (pre ++ ('.' :: c1)) ++ ('.' :: (c2 ++ ('.' :: ext)))
    simp
  have hvlen : ('.' :: (c2 ++ ('.' :: ext))).length = 7 := by
    have h2 : c2.length = 2 := shapeOk_two_length c2 hc2
    have h3 : ext.length = 3 := extOk_length ext hext
    simp [h2, h3]
  have hnone : ∀ k, k < (pre ++ ('.' :: c1)).length →
      matchHere '.' .two ((pre ++ ('.' :: c1)).drop k ++ ('.' :: (c2 ++ ('.' :: ext)))) = none := by
    intro k hk
    rcases hm : matchHere '.' .two
        ((pre ++ ('.' :: c1)).drop k ++ ('.' :: (c2 ++ ('.' :: ext)))) with _ | code
    · rfl
    · exfalso
      have hlen := matchHere_two_length _ code hm
      rw [List.length_append, List.length_drop, hvlen] at hlen
      omega
  have hscan1 : scanMatch '.' .two
      ((pre ++ ('.' :: c1)) ++ ('.' :: (c2 ++ ('.' :: ext)))) = some c2 := by
    rw [scanMatch_drop_none '.' .two (pre ++ ('.' :: c1)) ('.' :: (c2 ++ ('.' :: ext))) hnone]
    rw [hc2eq]
    rw [scanMatch]
    have hmh : matchHere '.' .two ('.' :: ([a, b] ++ ('.' :: ext))) = some [a, b] := by
      simp [matchHere, takeCode, hab, hext]
    rw [hmh]
  simp only [extractLanguageFromFilename]
  rw [hlist, hscan1]

lemma taskOutcome_id (env : ExecEnv) (p s : String) (styling : StylingConfig)
    (ep : EpisodeInfo) : outcomeId (taskOutcome env p s styling ep) = ep.episode_id := by
  unfold taskOutcome
  rcases hsub : env.subs ep.episode_id with e | subs
  · rfl
  · dsimp only
    split
    · split
      · rfl
      · split
        · rfl
        · split <;> rfl
    · split <;> rfl

lemma bulkLoop_results_times (env : ExecEnv) (p s : String) (styling : StylingConfig)
    (total : Nat) :
    ∀ (tasks : List EpisodeInfo) (i : Nat) (st : LoopState),
      (bulkLoop env p s styling total tasks i st).results.successful =
        st.results.successful ++
          tasks.filterMap (fun ep => successEntryOf (taskOutcome env p s styling ep)) ∧
      (bulkLoop env p s styling total tasks i st).results.failed =
        st.results.failed ++
          tasks.filterMap (fun ep => failEntryOf (taskOutcome env p s styling ep)) ∧
      (bulkLoop env p s styling total tasks i st).results.skipped =
        st.results.skipped ++
          tasks.filterMap (fun ep => skipEntryOf (taskOutcome env p s styling ep)) ∧
      (bulkLoop env p s styling total tasks i st).episodeTimes =
        st.episodeTimes ++ successfulDurations env p s styling tasks := by
  intro tasks
  induction tasks with
  | nil =>
    intro i st
    simp [bulkLoop, successfulDurations]
  | cons ep rest ih =>
    intro i st
    rw [bulkLoop]
    rcases ho : taskOutcome env p s styling ep with ⟨entry, d⟩ | entry | entry <;>
      simp only [ho] <;>
      obtain ⟨h1, h2, h3, h4⟩ := ih (i + 1) _ <;>
      rw [h1, h2, h3, h4] <;>
      simp [successfulDurations, List.filterMap_cons, ho, successEntryOf, failEntryOf,
        skipEntryOf, durationOf]

lemma reportsAux_length (env : ExecEnv) (p s : String) (styling : StylingConfig)
    (total : Nat) :
    ∀ (tasks : List EpisodeInfo) (i : Nat) (times : List Nat),
      (reportsAux env p s styling total tasks i times).length = tasks.length := by
  intro tasks
  induction tasks with
  | nil => intro i times; rfl
  | cons ep rest ih =>
    intro i times
    rw [reportsAux]
    simp [ih]

lemma bulkLoop_reports_eq (env : ExecEnv) (p s : String) (styling : StylingConfig)
    (total : Nat) :
    ∀ (tasks : List EpisodeInfo) (i : Nat) (st : LoopState),
      (bulkLoop env p s styling total tasks i st).reports =
        st.reports ++ reportsAux env p s styling total tasks i st.episodeTimes := by
  intro tasks
  induction tasks with
  | nil => intro i st; simp [bulkLoop, reportsAux]
  | cons ep rest ih =>
    intro i st
    rw [bulkLoop, reportsAux]
    rcases ho : taskOutcome env p s styling ep with ⟨entry, d⟩ | entry | entry <;>
      simp only [ho] <;>
      rw [ih (i + 1) _] <;>
      simp

lemma reportsAux_get (env : ExecEnv) (p s : String) (styling : StylingConfig)
    (total : Nat) :
    ∀ (tasks : List EpisodeInfo) (i : Nat) (times : List Nat) (j : Nat) (ep : EpisodeInfo),
      tasks[j]? = some ep →
      (reportsAux env p s styling total tasks i times)[j]? =
        some (mkReport (i + j) total ep
          (times ++ successfulDurations env p s styling (tasks.take j))) := by
  intro tasks
  induction tasks with
  | nil => intro i times j ep h; simp at h
  | cons ep0 rest ih =>
    intro i times j ep h
    rw [reportsAux]
    rcases j with _ | j
    · obtain hep : ep0 = ep := by simpa using h
      subst hep
      simp [successfulDurations]
    · obtain hget : rest[j]? = some ep := by simpa using h
      have harith : i + (j + 1) = (i + 1) + j := by omega
      rcases ho : taskOutcome env p s styling ep0 with ⟨entry, d⟩ | entry | entry <;>
        simp only [ho, List.getElem?_cons_succ] <;>
        rw [ih (i + 1) _ j ep hget] <;>
        rw [harith] <;>
        simp [successfulDurations, List.filterMap_cons, ho, durationOf]

lemma successEntryOf_succeeded (e : SuccessEntry) (d : Nat) :
    successEntryOf (.succeeded e d) = some e := rfl

lemma successEntryOf_failed (e : FailEntry) : successEntryOf (.taskFailed e) = none := rfl

lemma successEntryOf_skipped (e : SkipEntry) : successEntryOf (.taskSkipped e) = none := rfl

lemma failEntryOf_succeeded (e : SuccessEntry) (d : Nat) :
    failEntryOf (.succeeded e d) = none := rfl

lemma failEntryOf_failed (e : FailEntry) : failEntryOf (.taskFailed e) = some e := rfl

lemma failEntryOf_skipped (e : SkipEntry) : failEntryOf (.taskSkipped e) = none := rfl

lemma skipEntryOf_succeeded (e : SuccessEntry) (d : Nat) :
    skipEntryOf (.succeeded e d) = none := rfl

lemma skipEntryOf_failed (e : FailEntry) : skipEntryOf (.taskFailed e) = none := rfl

lemma skipEntryOf_skipped (e : SkipEntry) : skipEntryOf (.taskSkipped e) = some e := rfl

lemma outcome_counts (env : ExecEnv) (p s : String) (styling : StylingConfig) :
    ∀ (tasks : List EpisodeInfo) (e : String),
      ((tasks.filterMap (fun ep => successEntryOf (taskOutcome env p s styling ep))).map
        (fun x => x.episode_id)).count e +
      ((tasks.filterMap (fun ep => failEntryOf (taskOutcome env p s styling ep))).map
        (fun x => x.episode_id)).count e +
      ((tasks.filterMap (fun ep => skipEntryOf (taskOutcome env p s styling ep))).map
        (fun x => x.episode_id)).count e =
      (tasks.map (fun ep => ep.episode_id)).count e := by
  intro tasks
  induction tasks with
  | nil => intro e; rfl
  | cons ep rest ih =>
    intro e
    have hid := taskOutcome_id env p s styling ep
    have H := ih e
    rcases ho : taskOutcome env p s styling ep with ⟨entry, d⟩ | entry | entry <;>
      rw [ho] at hid <;>
      simp only [outcomeId] at hid <;>
      simp only [List.filterMap_cons, List.map_cons, ho, successEntryOf_succeeded,
        successEntryOf_failed, successEntryOf_skipped, failEntryOf_succeeded,
        failEntryOf_failed, failEntryOf_skipped, skipEntryOf_succeeded, skipEntryOf_failed,
        skipEntryOf_skipped, List.count_cons, hid] <;>
      omega

lemma processBulk_ok_parts (env : ExecEnv) (analysis : SubtitleAnalysis) (p s : String)
    (styling : StylingConfig) (pa sa : Availability) (res : BulkResults)
    (reports : List ProgressReport) (times : List Nat)
    (hp : jsLookup analysis.language_availability p = some pa)
    (hs : jsLookup analysis.language_availability s = some sa)
    (h : processBulkDualSubtitles env analysis p s styling = .ok (res, reports, times)) :
    res = (bulkLoop env p s styling (episodesToProcessList pa sa p s).length
            (episodesToProcessList pa sa p s) 0 ⟨⟨[], [], []⟩, [], []⟩).results ∧
    reports = (bulkLoop env p s styling (episodesToProcessList pa sa p s).length
            (episodesToProcessList pa sa p s) 0 ⟨⟨[], [], []⟩, [], []⟩).reports ++
          [finalReport (episodesToProcessList pa sa p s).length] ∧
    times = (bulkLoop env p s styling (episodesToProcessList pa sa p s).length
            (episodesToProcessList pa sa p s) 0 ⟨⟨[], [], []⟩, [], []⟩).episodeTimes := by
  unfold processBulkDualSubtitles at h
  rw [hp, hs] at h
  simp only [Except.ok.injEq, Prod.mk.injEq] at h
  obtain ⟨h1, h2, h3⟩ := h
  exact ⟨h1.symm, h2.symm, h3.symm⟩

lemma processBulk_perm (env : ExecEnv) (analysis : SubtitleAnalysis) (p s : String)
    (styling : StylingConfig) (pa sa : Availability) (res : BulkResults)
    (reports : List ProgressReport) (times : List Nat)
    (hp : jsLookup analysis.language_availability p = some pa)
    (hs : jsLookup analysis.language_availability s = some sa)
    (h : processBulkDualSubtitles env analysis p s styling = .ok (res, reports, times)) :
    (resultIds res).Perm
      ((episodesToProcessList pa sa p s).map (fun ep => ep.episode_id)) := by
  obtain ⟨h1, _, _⟩ := processBulk_ok_parts env analysis p s styling pa sa res reports times hp hs h
  obtain ⟨hsucc, hfail, hskip, _⟩ :=
    bulkLoop_results_times env p s styling (episodesToProcessList pa sa p s).length
      (episodesToProcessList pa sa p s) 0 ⟨⟨[], [], []⟩, [], []⟩
  rw [List.perm_iff_count]
  intro e
  rw [resultIds, h1, hsucc, hfail, hskip]
  simp only [List.nil_append, List.count_append]
  exact outcome_counts env p s styling (episodesToProcessList pa sa p s) e

/-- C1: for every completed bulk run, the episode ids of the successful, failed
and skipped lists together form a permutation of the task list ids (the episodes
with both languages available and no existing dual output for the requested
pair), and when the task list ids are distinct, every task id lands in exactly
one outcome bucket exactly once. -/
theorem bulk_partition (env : ExecEnv) (analysis : SubtitleAnalysis) (p s : String)
    (styling : StylingConfig) (pa sa : Availability) (res : BulkResults)
    (reports : List ProgressReport) (times : List Nat)
    (hp : jsLookup analysis.language_availability p = some pa)
    (hs : jsLookup analysis.language_availability s = some sa)
    (h : processBulkDualSubtitles env analysis p s styling = .ok (res, reports, times)) :
    (resultIds res).Perm
      ((episodesToProcessList pa sa p s).map (fun ep => ep.episode_id)) ∧
    (((episodesToProcessList pa sa p s).map (fun ep => ep.episode_id)).Nodup →
      ∀ e ∈ (episodesToProcessList pa sa p s).map (fun ep => ep.episode_id),
        (res.successful.map (fun x => x.episode_id)).count e +
        (res.failed.map (fun x => x.episode_id)).count e +
        (res.skipped.map (fun x => x.episode_id)).count e = 1) := by
  have hperm := processBulk_perm env analysis p s styling pa sa res reports times hp hs h
  refine ⟨hperm, ?_⟩
  intro hnd e he
  have h1 : ((episodesToProcessList pa sa p s).map (fun ep => ep.episode_id)).count e = 1 :=
    List.count_eq_one_of_mem hnd he
  have h2 : (resultIds res).count e = 1 := by
    rw [hperm.count_eq, h1]
  rw [resultIds, List.count_append, List.count_append] at h2
  omega

/-- C2 amended: an episode of the both-languages set that already carries a
dual output for the requested unordered pair is never re-processed: it is
excluded from the task list and its id appears in none of the three outcome
lists. -/
theorem bulk_dual_pair_excluded (env : ExecEnv) (analysis : SubtitleAnalysis) (p s : String)
    (styling : StylingConfig) (pa sa : Availability) (res : BulkResults)
    (reports : List ProgressReport) (times : List Nat) (ep : EpisodeInfo)
    (hp : jsLookup analysis.language_availability p = some pa)
    (hs : jsLookup analysis.language_availability s = some sa)
    (hex : ep ∈ episodesWithBothLangs pa sa)
    (hdual : episodeHasDualSubtitle ep p s = true)
    (hnd : ((episodesWithBothLangs pa sa).map (fun e2 => e2.episode_id)).Nodup)
    (h : processBulkDualSubtitles env analysis p s styling = .ok (res, reports, times)) :
    ep ∉ episodesToProcessList pa sa p s ∧ ep.episode_id ∉ resultIds res := by
  have hnotin : ep ∉ episodesToProcessList pa sa p s := by
    intro hin
    rw [episodesToProcessList, List.mem_filter] at hin
    rw [episodeHasDualSubtitle] at hdual
    simp [hdual] at hin
  refine ⟨hnotin, ?_⟩
  intro hmem
  have hperm := processBulk_perm env analysis p s styling pa sa res reports times hp hs h
  rw [hperm.mem_iff] at hmem
  obtain ⟨ep2, hep2, hid⟩ := List.mem_map.mp hmem
  have hep2both : ep2 ∈ episodesWithBothLangs pa sa :=
    List.mem_of_mem_filter hep2
  have heq : ep2 = ep :=
    List.inj_on_of_nodup_map hnd hep2both hex hid
  rw [heq] at hep2
  exact hnotin hep2

/-- C6 amended: the recorded timing history equals the durations of the
successful tasks only; the report emitted before task j carries processed
equal to j and an estimate computed from the remaining count times the mean
of the successful durations recorded so far, with a 45 second default when
none has been recorded; a final report with processed equal to the total
closes the run. -/
theorem bulk_progress_spec (env : ExecEnv) (analysis : SubtitleAnalysis) (p s : String)
    (styling : StylingConfig) (pa sa : Availability) (res : BulkResults)
    (reports : List ProgressReport) (times : List Nat)
    (hp : jsLookup analysis.language_availability p = some pa)
    (hs : jsLookup analysis.language_availability s = some sa)
    (h : processBulkDualSubtitles env analysis p s styling = .ok (res, reports, times)) :
    times = successfulDurations env p s styling (episodesToProcessList pa sa p s) ∧
    reports.length = (episodesToProcessList pa sa p s).length + 1 ∧
    (∀ (j : Nat) (ep : EpisodeInfo), (episodesToProcessList pa sa p s)[j]? = some ep →
      reports[j]? = some (mkReport j (episodesToProcessList pa sa p s).length ep
        (successfulDurations env p s styling ((episodesToProcessList pa sa p s).take j)))) ∧
    reports[(episodesToProcessList pa sa p s).length]? =
      some (finalReport (episodesToProcessList pa sa p s).length) := by
  obtain ⟨h1, h2, h3⟩ := processBulk_ok_parts env analysis p s styling pa sa res reports times hp hs h
  obtain ⟨_, _, _, htimes⟩ :=
    bulkLoop_results_times env p s styling (episodesToProcessList pa sa p s).length
      (episodesToProcessList pa sa p s) 0 ⟨⟨[], [], []⟩, [], []⟩
  have hreps := bulkLoop_reports_eq env p s styling (episodesToProcessList pa sa p s).length
      (episodesToProcessList pa sa p s) 0 ⟨⟨[], [], []⟩, [], []⟩
  have hlen := reportsAux_length env p s styling (episodesToProcessList pa sa p s).length
      (episodesToProcessList pa sa p s) 0 []
  refine ⟨?_, ?_, ?_, ?_⟩
  · rw [h3, htimes]; rfl
  · rw [h2, hreps]
    simp [hlen]
  · intro j ep hget
    rw [h2, hreps]
    simp only [List.nil_append]
    obtain ⟨hjlt, -⟩ := List.getElem?_eq_some.mp hget
    rw [List.getElem?_append_left (by rw [hlen]; exact hjlt)]
    have := reportsAux_get env p s styling (episodesToProcessList pa sa p s).length
      (episodesToProcessList pa sa p s) 0 [] j ep hget
    rw [this]
    simp
  · rw [h2, hreps]
    simp only [List.nil_append]
    have hfin := List.getElem?_concat_length
      (reportsAux env p s styling (episodesToProcessList pa sa p s).length
        (episodesToProcessList pa sa p s) 0 [])
      (finalReport (episodesToProcessList pa sa p s).length)
    rw [hlen] at hfin
    exact hfin

/-- C5 amended: per ready episode the external file of each language is
preferred, a missing external file falls back to the embedded stream
reference, and when neither resolves for a language at execution time the
task is recorded at run time in the skipped list with reason Missing
language subtitle rather than being excluded at selection time. -/
theorem bulk_source_resolution (env : ExecEnv) (p s : String) (styling : StylingConfig)
    (ep : EpisodeInfo) (subs : EpisodeSubtitles) :
    (∀ extSub : ExternalSub,
      subs.external_subtitles.find? (fun sub => sub.language_code == some p) = some extSub →
      extSub.file_path ≠ "" →
      (buildConfig styling subs p s
        (subs.external_subtitles.find? (fun sub => sub.language_code == some p))
        (subs.external_subtitles.find? (fun sub => sub.language_code == some s))).primary_subtitle
        = extSub.file_path) ∧
    (∀ extSub : ExternalSub,
      subs.external_subtitles.find? (fun sub => sub.language_code == some s) = some extSub →
      extSub.file_path ≠ "" →
      (buildConfig styling subs p s
        (subs.external_subtitles.find? (fun sub => sub.language_code == some p))
        (subs.external_subtitles.find? (fun sub => sub.language_code == some s))).secondary_subtitle
        = extSub.file_path) ∧
    (∀ embSub : EmbeddedSub,
      subs.external_subtitles.find? (fun sub => sub.language_code == some p) = none →
      subs.embedded_subtitles.find? (fun st => st.languageCode == some p) = some embSub →
      (buildConfig styling subs p s
        (subs.external_subtitles.find? (fun sub => sub.language_code == some p))
        (subs.external_subtitles.find? (fun sub => sub.language_code == some s))).primary_subtitle
        = "embedded:" ++ toString embSub.stream_index) ∧
    (∀ embSub : EmbeddedSub,
      subs.external_subtitles.find? (fun sub => sub.language_code == some s) = none →
      subs.embedded_subtitles.find? (fun st => st.languageCode == some s) = some embSub →
      (buildConfig styling subs p s
        (subs.external_subtitles.find? (fun sub => sub.language_code == some p))
        (subs.external_subtitles.find? (fun sub => sub.language_code == some s))).secondary_subtitle
        = "embedded:" ++ toString embSub.stream_index) ∧
    (env.subs ep.episode_id = .ok subs →
      subs.external_subtitles.find? (fun sub => sub.language_code == some p) = none →
      subs.embedded_subtitles.find? (fun sub => sub.languageCode == some p) = none →
      taskOutcome env p s styling ep =
        .taskSkipped ⟨ep.episode_id, "Missing " ++ p ++ " subtitle"⟩) ∧
    (env.subs ep.episode_id = .ok subs →
      (subs.external_subtitles.find? (fun sub => sub.language_code == some p) ≠ none ∨
       subs.embedded_subtitles.find? (fun sub => sub.languageCode == some p) ≠ none) →
      subs.external_subtitles.find? (fun sub => sub.language_code == some s) = none →
      subs.embedded_subtitles.find? (fun sub => sub.languageCode == some s) = none →
      taskOutcome env p s styling ep =
        .taskSkipped ⟨ep.episode_id, "Missing " ++ s ++ " subtitle"⟩) := by
  refine ⟨?_, ?_, ?_, ?_, ?_, ?_⟩
  · intro extSub hfind hne
    rw [buildConfig, hfind]
    simp [jsOrStr, hne]
  · intro extSub hfind hne
    rw [buildConfig, hfind]
    simp [jsOrStr, hne]
  · intro embSub hfind hemb
    rw [buildConfig, hfind]
    simp [jsOrStr, embeddedIndexRef, hemb]
  · intro embSub hfind hemb
    rw [buildConfig, hfind]
    simp [jsOrStr, embeddedIndexRef, hemb]
  · intro hsub hfind hemb
    rw [taskOutcome, hsub]
    simp only [hfind, hemb, Option.isNone_none, Bool.true_or, Bool.and_self, if_true]
  · intro hsub hres hfind hemb
    rw [taskOutcome, hsub]
    simp only [hfind, hemb, Option.isNone_none]
    rcases hres with hr | hr
    · rcases hfp : subs.external_subtitles.find? (fun sub => sub.language_code == some p)
          with _ | v
      · exact absurd hfp hr
      · simp [hfp]
    · rcases hfe : subs.embedded_subtitles.find? (fun sub => sub.languageCode == some p)
          with _ | v
      · exact absurd hfe hr
      · simp [hfe]

lemma updateLang_same (m : LangMap) (k : String) (f : LangData → LangData) :
    updateLang m k f k = f (m k) := by simp [updateLang]

lemma updateLang_ne (m : LangMap) (k : String) (f : LangData → LangData) (x : String)
    (h : x ≠ k) : updateLang m k f x = m x := by simp [updateLang, h]

lemma setAdd_idem (l : List String) (x : String) : setAdd (setAdd l x) x = setAdd l x := by
  by_cases h : x ∈ l
  · simp [setAdd, h]
  · simp [setAdd, h]

lemma embAddSeen_embAddNew (epId : String) (info : EpisodeInfo) (d : LangData) :
    embAddSeen epId (embAddNew epId info d) = embAddNew epId info d := by
  simp [embAddSeen, embAddNew, setAdd_idem]

lemma extFold_spec (epId : String) (info : EpisodeInfo) :
    ∀ (subsL : List ExternalSub) (m : LangMap) (seen : List String) (L : String),
      (L ∈ (subsL.foldl (processExternalSub epId info) (m, seen)).2 ↔
        L ∈ seen ∨ subsL.any
          (fun sub => !sub.is_dual_subtitle && decide (normCode sub.language_code = L)) = true) ∧
      (subsL.foldl (processExternalSub epId info) (m, seen)).1 L =
        (if L ∉ seen ∧ subsL.any
            (fun sub => !sub.is_dual_subtitle && decide (normCode sub.language_code = L)) = true
         then extAddData epId info (m L) else m L) := by
  intro subsL
  induction subsL with
  | nil =>
    intro m seen L
    simp
  | cons sub rest ih =>
    intro m seen L
    rw [List.foldl_cons]
    by_cases hdual : sub.is_dual_subtitle = true
    · rw [show processExternalSub epId info (m, seen) sub = (m, seen) by
        simp [processExternalSub, hdual]]
      obtain ⟨ihm, ihv⟩ := ih m seen L
      constructor
      · rw [ihm]
        simp [hdual]
      · rw [ihv]
        simp [hdual]
    · by_cases hC : normCode sub.language_code ∈ seen
      · rw [show processExternalSub epId info (m, seen) sub = (m, seen) by
          simp [processExternalSub, hdual, hC]]
        obtain ⟨ihm, ihv⟩ := ih m seen L
        by_cases hLC : normCode sub.language_code = L
        · subst hLC
          constructor
          · rw [ihm]; simp [hC]
          · rw [ihv]; simp [hC]
        · constructor
          · rw [ihm]
            simp [hdual, hLC]
          · rw [ihv]
            simp [hdual, hLC]
      · rw [show processExternalSub epId info (m, seen) sub =
            (updateLang m (normCode sub.language_code) (extAddData epId info),
              seen ++ [normCode sub.language_code]) by
          simp [processExternalSub, hdual, hC]]
        obtain ⟨ihm, ihv⟩ := ih (updateLang m (normCode sub.language_code) (extAddData epId info))
          (seen ++ [normCode sub.language_code]) L
        by_cases hLC : normCode sub.language_code = L
        · subst hLC
          constructor
          · rw [ihm]
            simp [hdual]
          · rw [ihv]
            simp [hC, hdual, updateLang_same]
        · have h1 : (L ∈ seen ++ [normCode sub.language_code]) ↔ L ∈ seen := by
            simp only [List.mem_append, List.mem_singleton]
            constructor
            · rintro (h | h)
              · exact h
              · exact absurd h.symm hLC
            · exact fun h => Or.inl h
          have h2 : ((sub :: rest).any
              (fun sb => !sb.is_dual_subtitle && decide (normCode sb.language_code = L))) =
              (rest.any
              (fun sb => !sb.is_dual_subtitle && decide (normCode sb.language_code = L))) := by
            simp [hLC]
          constructor
          · rw [ihm, h2, h1]
          · rw [ihv, updateLang_ne m _ _ L (fun he => hLC he.symm), h2]
            simp only [h1]

lemma embFold_spec (epId : String) (info : EpisodeInfo) :
    ∀ (subsL : List EmbeddedSub) (m : LangMap) (seen : List String) (L : String),
      (L ∈ (subsL.foldl (processEmbeddedSub epId info) (m, seen)).2 ↔
        L ∈ seen ∨ subsL.any (fun sub => decide (normCode sub.languageCode = L)) = true) ∧
      (subsL.foldl (processEmbeddedSub epId info) (m, seen)).1 L =
        (if subsL.any (fun sub => decide (normCode sub.languageCode = L)) = true
         then (if L ∈ seen then embAddSeen epId (m L) else embAddNew epId info (m L))
         else m L) := by
  intro subsL
  induction subsL with
  | nil =>
    intro m seen L
    simp
  | cons sub rest ih =>
    intro m seen L
    rw [List.foldl_cons]
    by_cases hC : normCode sub.languageCode ∈ seen
    · rw [show processEmbeddedSub epId info (m, seen) sub =
          (updateLang m (normCode sub.languageCode) (embAddSeen epId), seen) by
        simp [processEmbeddedSub, hC]]
      obtain ⟨ihm, ihv⟩ := ih (updateLang m (normCode sub.languageCode) (embAddSeen epId)) seen L
      by_cases hLC : normCode sub.languageCode = L
      · subst hLC
        constructor
        · rw [ihm]; simp [hC]
        · rw [ihv, updateLang_same]
          by_cases hany : rest.any (fun sb => decide (normCode sb.languageCode
              = normCode sub.languageCode)) = true
          · simp [hany, hC, embAddSeen, setAdd_idem]
          · simp [hany, hC]
      · have h2 : ((sub :: rest).any (fun sb => decide (normCode sb.languageCode = L))) =
            (rest.any (fun sb => decide (normCode sb.languageCode = L))) := by
          simp [hLC]
        constructor
        · rw [ihm, h2]
        · rw [ihv, updateLang_ne m _ _ L (fun he => hLC he.symm), h2]
    · rw [show processEmbeddedSub epId info (m, seen) sub =
          (updateLang m (normCode sub.languageCode) (embAddNew epId info),
            seen ++ [normCode sub.languageCode]) by
        simp [processEmbeddedSub, hC]]
      obtain ⟨ihm, ihv⟩ := ih (updateLang m (normCode sub.languageCode) (embAddNew epId info))
        (seen ++ [normCode sub.languageCode]) L
      by_cases hLC : normCode sub.languageCode = L
      · subst hLC
        constructor
        · rw [ihm]; simp
        · rw [ihv, updateLang_same]
          by_cases hany : rest.any (fun sb => decide (normCode sb.languageCode
              = normCode sub.languageCode)) = true
          · simp [hany, hC, embAddSeen_embAddNew]
          · simp [hany, hC]
      · have h1 : (L ∈ seen ++ [normCode sub.languageCode]) ↔ L ∈ seen := by
          simp only [List.mem_append, List.mem_singleton]
          constructor
          · rintro (h | h)
            · exact h
            · exact absurd h.symm hLC
          · exact fun h => Or.inl h
        have h2 : ((sub :: rest).any (fun sb => decide (normCode sb.languageCode = L))) =
            (rest.any (fun sb => decide (normCode sb.languageCode = L))) := by
          simp [hLC]
        constructor
        · rw [ihm, h2, h1]
        · rw [ihv, updateLang_ne m _ _ L (fun he => hLC he.symm), h2]
          simp only [h1]

lemma processEpisode_spec (m : LangMap) (ep : Episode) (subs : EpisodeSubtitles) (L : String) :
    processEpisode m ep (some subs) L =
      (if qualifiesExternal L subs = true then
        (if qualifiesEmbedded L subs = true then
          embAddSeen ep.id (extAddData ep.id (mkEpisodeInfo ep subs) (m L))
         else extAddData ep.id (mkEpisodeInfo ep subs) (m L))
       else
        (if qualifiesEmbedded L subs = true then
          embAddNew ep.id (mkEpisodeInfo ep subs) (m L)
         else m L)) := by
  rw [processEpisode]
  obtain ⟨hm1, hv1⟩ := extFold_spec ep.id (mkEpisodeInfo ep subs)
    subs.external_subtitles m [] L
  obtain ⟨hm2, hv2⟩ := embFold_spec ep.id (mkEpisodeInfo ep subs)
    subs.embedded_subtitles
    (subs.external_subtitles.foldl (processExternalSub ep.id (mkEpisodeInfo ep subs)) (m, [])).1
    (subs.external_subtitles.foldl (processExternalSub ep.id (mkEpisodeInfo ep subs)) (m, [])).2
    L
  rw [Prod.mk.eta] at hm2 hv2
  have hqeq : (subs.external_subtitles.any
      (fun sub => !sub.is_dual_subtitle && decide (normCode sub.language_code = L))) =
      qualifiesExternal L subs := rfl
  have hbeq : (subs.embedded_subtitles.any
      (fun sub => decide (normCode sub.languageCode = L))) = qualifiesEmbedded L subs := rfl
  rw [hqeq] at hm1 hv1
  rw [hbeq] at hm2 hv2
  rw [hv2]
  by_cases hqe : qualifiesExternal L subs = true
  · have hseen : L ∈ (subs.external_subtitles.foldl
        (processExternalSub ep.id (mkEpisodeInfo ep subs)) (m, [])).2 := by
      rw [hm1]
      right
      exact hqe
    have hval : (subs.external_subtitles.foldl
        (processExternalSub ep.id (mkEpisodeInfo ep subs)) (m, [])).1 L =
        extAddData ep.id (mkEpisodeInfo ep subs) (m L) := by
      rw [hv1]
      simp [hqe]
    by_cases hqb : qualifiesEmbedded L subs = true
    · simp [hqb, hseen, hval, hqe]
    · simp [hqb, hval, hqe]
  · have hseen : L ∉ (subs.external_subtitles.foldl
        (processExternalSub ep.id (mkEpisodeInfo ep subs)) (m, [])).2 := by
      rw [hm1]
      simp [hqe]
    have hval : (subs.external_subtitles.foldl
        (processExternalSub ep.id (mkEpisodeInfo ep subs)) (m, [])).1 L = m L := by
      rw [hv1]
      simp [hqe]
    by_cases hqb : qualifiesEmbedded L subs = true
    · simp [hqb, hseen, hval, hqe]
    · simp [hqb, hval, hqe]

lemma setAdd_not_mem (l : List String) (x : String) (h : x ∉ l) : setAdd l x = l ++ [x] := by
  simp [setAdd, h]

lemma analyzeFold_spec :
    ∀ (eps : List (Episode × Option EpisodeSubtitles)) (m : LangMap) (L : String),
      ((eps.map (fun pr => pr.1.id)).Nodup) →
      (∀ pr ∈ eps, pr.1.id ∉ (m L).episode_ids ∧ pr.1.id ∉ (m L).external_ids ∧
        pr.1.id ∉ (m L).embedded_ids) →
      (eps.foldl (fun m2 pr => processEpisode m2 pr.1 pr.2) m) L =
        { episode_ids := (m L).episode_ids ++
            (eps.filter (qualAvailable L)).map (fun pr => pr.1.id)
          external_ids := (m L).external_ids ++
            (eps.filter (qualExternal L)).map (fun pr => pr.1.id)
          embedded_ids := (m L).embedded_ids ++
            (eps.filter (qualEmbedded L)).map (fun pr => pr.1.id)
          episode_details := (m L).episode_details ++ eps.filterMap (detailEntryOf L) } := by
  intro eps
  induction eps with
  | nil =>
    intro m L _ _
    simp
  | cons pr rest ih =>
    rcases pr with ⟨epc, so⟩
    intro m L hnd hdisj
    have hhead := hdisj ⟨epc, so⟩ (List.mem_cons_self _ _)
    obtain ⟨hh1, hh2, hh3⟩ := hhead
    have hdrest : ∀ pr2 ∈ rest, pr2.1.id ∉ (m L).episode_ids ∧
        pr2.1.id ∉ (m L).external_ids ∧ pr2.1.id ∉ (m L).embedded_ids :=
      fun pr2 hpr2 => hdisj pr2 (List.mem_cons_of_mem _ hpr2)
    rw [List.map_cons, List.nodup_cons] at hnd
    obtain ⟨hidnot, hndrest⟩ := hnd
    have hidne : ∀ pr2 ∈ rest, pr2.1.id ≠ epc.id := by
      intro pr2 hpr2 he
      exact hidnot (he ▸ List.mem_map_of_mem (fun pr3 => pr3.1.id) hpr2)
    rw [List.foldl_cons]
    rcases so with _ | subs
    · rw [show processEpisode m epc none = m from rfl]
      rw [ih m L hndrest hdrest]
      simp [List.filter_cons, qualAvailable, qualExternal, qualEmbedded,
        List.filterMap_cons, detailEntryOf]
    · have hspec := processEpisode_spec m epc subs L
      by_cases hqe : qualifiesExternal L subs = true <;>
        by_cases hqb : qualifiesEmbedded L subs = true
      · rw [if_pos hqe, if_pos hqb] at hspec
        have hdisj2 : ∀ pr2 ∈ rest,
            pr2.1.id ∉ (processEpisode m epc (some subs) L).episode_ids ∧
            pr2.1.id ∉ (processEpisode m epc (some subs) L).external_ids ∧
            pr2.1.id ∉ (processEpisode m epc (some subs) L).embedded_ids := by
          intro pr2 hpr2
          obtain ⟨hr1, hr2, hr3⟩ := hdrest pr2 hpr2
          have hne := hidne pr2 hpr2
          rw [hspec]
          simp [embAddSeen, extAddData, setAdd_not_mem _ _ hh1, setAdd_not_mem _ _ hh2,
            setAdd_not_mem _ _ hh3, hr1, hr2, hr3, hne]
        rw [ih (processEpisode m epc (some subs)) L hndrest hdisj2, hspec]
        simp only [embAddSeen, extAddData, setAdd_not_mem _ _ hh1, setAdd_not_mem _ _ hh2,
          setAdd_not_mem _ _ hh3]
        have hqa : qualAvailable L (epc, some subs) = true := by
          simp [qualAvailable, hqe, hqb]
        have hqx : qualExternal L (epc, some subs) = true := by
          simp [qualExternal, hqe]
        have hqm : qualEmbedded L (epc, some subs) = true := by
          simp [qualEmbedded, hqb]
        have hde : detailEntryOf L (epc, some subs) = some (mkEpisodeInfo epc subs) := by
          simp [detailEntryOf, hqe, hqb]
        simp [List.filter_cons, hqa, hqx, hqm, List.filterMap_cons, hde]
      · rw [if_pos hqe, if_neg hqb] at hspec
        have hdisj2 : ∀ pr2 ∈ rest,
            pr2.1.id ∉ (processEpisode m epc (some subs) L).episode_ids ∧
            pr2.1.id ∉ (processEpisode m epc (some subs) L).external_ids ∧
            pr2.1.id ∉ (processEpisode m epc (some subs) L).embedded_ids := by
          intro pr2 hpr2
          obtain ⟨hr1, hr2, hr3⟩ := hdrest pr2 hpr2
          have hne := hidne pr2 hpr2
          rw [hspec]
          simp [extAddData, setAdd_not_mem _ _ hh1, setAdd_not_mem _ _ hh2,
            hr1, hr2, hr3, hne]
        rw [ih (processEpisode m epc (some subs)) L hndrest hdisj2, hspec]
        simp only [extAddData, setAdd_not_mem _ _ hh1, setAdd_not_mem _ _ hh2]
        have hqa : qualAvailable L (epc, some subs) = true := by
          simp [qualAvailable, hqe]
        have hqx : qualExternal L (epc, some subs) = true := by
          simp [qualExternal, hqe]
        have hqm : qualEmbedded L (epc, some subs) = false := by
          simp [qualEmbedded, hqb]
        have hde : detailEntryOf L (epc, some subs) = some (mkEpisodeInfo epc subs) := by
          simp [detailEntryOf, hqe]
        simp [List.filter_cons, hqa, hqx, hqm, List.filterMap_cons, hde]
      · rw [if_neg hqe, if_pos hqb] at hspec
        have hdisj2 : ∀ pr2 ∈ rest,
            pr2.1.id ∉ (processEpisode m epc (some subs) L).episode_ids ∧
            pr2.1.id ∉ (processEpisode m epc (some subs) L).external_ids ∧
            pr2.1.id ∉ (processEpisode m epc (some subs) L).embedded_ids := by
          intro pr2 hpr2
          obtain ⟨hr1, hr2, hr3⟩ := hdrest pr2 hpr2
          have hne := hidne pr2 hpr2
          rw [hspec]
          simp [embAddNew, setAdd_not_mem _ _ hh1, setAdd_not_mem _ _ hh3,
            hr1, hr2, hr3, hne]
        rw [ih (processEpisode m epc (some subs)) L hndrest hdisj2, hspec]
        simp only [embAddNew, setAdd_not_mem _ _ hh1, setAdd_not_mem _ _ hh3]
        have hqa : qualAvailable L (epc, some subs) = true := by
          simp [qualAvailable, hqb]
        have hqx : qualExternal L (epc, some subs) = false := by
          simp [qualExternal, hqe]
        have hqm : qualEmbedded L (epc, some subs) = true := by
          simp [qualEmbedded, hqb]
        have hde : detailEntryOf L (epc, some subs) = some (mkEpisodeInfo epc subs) := by
          simp [detailEntryOf, hqb]
        simp [List.filter_cons, hqa, hqx, hqm, List.filterMap_cons, hde]
      · rw [if_neg hqe, if_neg hqb] at hspec
        rw [ih (processEpisode m epc (some subs)) L hndrest (by
          intro pr2 hpr2
          rw [hspec]
          exact hdrest pr2 hpr2), hspec]
        have hqa : qualAvailable L (epc, some subs) = false := by
          simp [qualAvailable, hqe, hqb]
        have hqx : qualExternal L (epc, some subs) = false := by
          simp [qualExternal, hqe]
        have hqm : qualEmbedded L (epc, some subs) = false := by
          simp [qualEmbedded, hqb]
        have hde : detailEntryOf L (epc, some subs) = none := by
          simp [detailEntryOf, hqe, hqb]
        simp [List.filter_cons, hqa, hqx, hqm, List.filterMap_cons, hde]

/-- C4: with distinct episode ids, the availability analysis computes, for
every language code, episodes_available as the number of episodes having at
least one non-dual external track or at least one embedded track with that
code (missing or empty codes normalised to the literal code unknown, and
dual-flagged tracks contributing to no single-language count),
episodes_with_embedded as the number of episodes with at least one embedded
track of that code even when the episode was already counted through an
external track, and one detail entry per counted episode that carries all of
its embedded streams. -/
theorem availability_analysis_spec (eps : List (Episode × Option EpisodeSubtitles))
    (hnd : (eps.map (fun pr => pr.1.id)).Nodup) (L : String) :
    analyzeAvailability eps L =
      { episode_ids := (eps.filter (qualAvailable L)).map (fun pr => pr.1.id)
        external_ids := (eps.filter (qualExternal L)).map (fun pr => pr.1.id)
        embedded_ids := (eps.filter (qualEmbedded L)).map (fun pr => pr.1.id)
        episode_details := eps.filterMap (detailEntryOf L) } ∧
    (finalizeAvailability L (analyzeAvailability eps L)).episodes_available =
      (eps.filter (qualAvailable L)).length ∧
    (finalizeAvailability L (analyzeAvailability eps L)).episodes_with_embedded =
      (eps.filter (qualEmbedded L)).length := by
  have h := analyzeFold_spec eps (fun _ => emptyLangData) L hnd
    (by intro pr hpr; simp [emptyLangData])
  have hA : analyzeAvailability eps L =
      { episode_ids := (eps.filter (qualAvailable L)).map (fun pr => pr.1.id)
        external_ids := (eps.filter (qualExternal L)).map (fun pr => pr.1.id)
        embedded_ids := (eps.filter (qualEmbedded L)).map (fun pr => pr.1.id)
        episode_details := eps.filterMap (detailEntryOf L) } := by
    rw [analyzeAvailability, h]
    simp [emptyLangData]
  refine ⟨hA, ?_, ?_⟩
  · rw [finalizeAvailability, hA]
    simp
  · rw [finalizeAvailability, hA]
    simp

/-- Witness for C1 at a concrete two-task run with one success and one skip. -/
theorem bulk_partition_witness :
    (resultIds w1Res).Perm
      ((episodesToProcessList w1Pa w1Sa "en" "ja").map (fun ep => ep.episode_id)) ∧
    (w1Res.successful.map (fun x => x.episode_id)).count "e1" +
      (w1Res.failed.map (fun x => x.episode_id)).count "e1" +
      (w1Res.skipped.map (fun x => x.episode_id)).count "e1" = 1 :=
  have h := bulk_partition w1Env w1Analysis "en" "ja" wSty w1Pa w1Sa w1Res w1Reports [30000]
    rfl rfl rfl
  ⟨h.1, h.2 (by decide) "e1" (by decide)⟩

/-- C2 counterexample: an episode whose existing dual output covers the
requested unordered pair is excluded from the run entirely: the returned
skipped list is empty and carries no already exists entry, refuting the claim
that such an episode is recorded as skipped with reason already exists. -/
theorem bulk_already_exists_cex :
    episodeHasDualSubtitle c2e1 "en" "ja" = true ∧
    c2e1 ∈ episodesWithBothLangs c2Pa c2Sa ∧
    processBulkDualSubtitles w1Env c2Analysis "en" "ja" wSty =
      .ok (⟨[], [], []⟩, [finalReport 0], []) := by
  refine ⟨by decide, by decide, by rfl⟩

/-- Witness for C2 amended at a concrete run whose only candidate episode
already has the requested dual output. -/
theorem bulk_dual_pair_excluded_witness :
    c2e1 ∉ episodesToProcessList c2Pa c2Sa "en" "ja" ∧
    c2e1.episode_id ∉ resultIds ⟨[], [], []⟩ :=
  bulk_dual_pair_excluded w1Env c2Analysis "en" "ja" wSty c2Pa c2Sa ⟨[], [], []⟩
    [finalReport 0] [] c2e1 rfl rfl (by decide) (by decide) (by decide) rfl

/-- C5 counterexample: an episode of the task list for which neither an
external file nor an embedded stream resolves at execution time is recorded in
the skipped list with reason Missing en subtitle while the failed list stays
empty, so the task is not recorded as failed as the claim states. -/
theorem bulk_missing_source_skipped_cex :
    c5e1 ∈ episodesToProcessList c5Pa c5Sa "en" "ja" ∧
    c5Env.subs "e1" = .ok ⟨[], []⟩ ∧
    (EpisodeSubtitles.mk [] []).external_subtitles.find?
      (fun sub => sub.language_code == some "en") = none ∧
    (EpisodeSubtitles.mk [] []).embedded_subtitles.find?
      (fun sub => sub.languageCode == some "en") = none ∧
    processBulkDualSubtitles c5Env c5Analysis "en" "ja" wSty =
      .ok (⟨[], [], [⟨"e1", "Missing en subtitle"⟩]⟩,
        [mkReport 0 1 c5e1 [], finalReport 1], []) := by
  refine ⟨by decide, rfl, rfl, rfl, by rfl⟩

/-- Witness for C5 amended: external preference, embedded fallback and the
run-time skip, each at a concrete listing. -/
theorem bulk_source_resolution_witness :
    (buildConfig wSty w1Subs "en" "ja"
      (w1Subs.external_subtitles.find? (fun sub => sub.language_code == some "en"))
      (w1Subs.external_subtitles.find? (fun sub => sub.language_code == some "ja"))).primary_subtitle
      = "/tv/e1.en.srt" ∧
    (buildConfig wSty w1Subs "en" "ja"
      (w1Subs.external_subtitles.find? (fun sub => sub.language_code == some "en"))
      (w1Subs.external_subtitles.find? (fun sub => sub.language_code == some "ja"))).secondary_subtitle
      = "/tv/e1.ja.srt" ∧
    (buildConfig wSty w5Subs "en" "ja"
      (w5Subs.external_subtitles.find? (fun sub => sub.language_code == some "en"))
      (w5Subs.external_subtitles.find? (fun sub => sub.language_code == some "ja"))).primary_subtitle
      = "embedded:3" ∧
    (buildConfig wSty w5Subs "en" "ja"
      (w5Subs.external_subtitles.find? (fun sub => sub.language_code == some "en"))
      (w5Subs.external_subtitles.find? (fun sub => sub.language_code == some "ja"))).secondary_subtitle
      = "embedded:4" ∧
    taskOutcome c5Env "en" "ja" wSty c5e1 =
      .taskSkipped ⟨"e1", "Missing en subtitle"⟩ ∧
    taskOutcome w5bEnv "en" "ja" wSty c5e1 =
      .taskSkipped ⟨"e1", "Missing ja subtitle"⟩ :=
  ⟨(bulk_source_resolution w1Env "en" "ja" wSty c5e1 w1Subs).1
      (w1Ext "en" "/tv/e1.en.srt") rfl (by decide),
   (bulk_source_resolution w1Env "en" "ja" wSty c5e1 w1Subs).2.1
      (w1Ext "ja" "/tv/e1.ja.srt") rfl (by decide),
   (bulk_source_resolution c5Env "en" "ja" wSty c5e1 w5Subs).2.2.1
      ⟨3, some "en", "English"⟩ rfl rfl,
   (bulk_source_resolution c5Env "en" "ja" wSty c5e1 w5Subs).2.2.2.1
      ⟨4, some "ja", "Japanese"⟩ rfl rfl,
   (bulk_source_resolution c5Env "en" "ja" wSty c5e1 ⟨[], []⟩).2.2.2.2.1 rfl rfl rfl,
   (bulk_source_resolution w5bEnv "en" "ja" wSty c5e1 w5bSubs).2.2.2.2.2 rfl
      (Or.inl (by decide)) rfl rfl⟩

/-- C6 counterexample: a run whose single task fails measures a duration of
60000 milliseconds yet ends with an empty timing history, so a task duration
is not appended to the timing history after every task. -/
theorem bulk_failed_duration_not_recorded_cex :
    c6Env.duration "e1" = 60000 ∧
    processBulkDualSubtitles c6Env c6Analysis "en" "ja" wSty =
      .ok (⟨[], [⟨"e1", "boom", "One"⟩], []⟩,
        [mkReport 0 1 c6e1 [], finalReport 1], []) ∧
    ([] : List Nat) ≠ [60000] := by
  refine ⟨rfl, by rfl, by decide⟩

/-- Witness for C6 amended at a concrete two-task run. -/
theorem bulk_progress_spec_witness :
    [30000] = successfulDurations w1Env "en" "ja" wSty
      (episodesToProcessList w1Pa w1Sa "en" "ja") ∧
    w1Reports.length = (episodesToProcessList w1Pa w1Sa "en" "ja").length + 1 ∧
    w1Reports[1]? = some (mkReport 1 (episodesToProcessList w1Pa w1Sa "en" "ja").length w1e2
      (successfulDurations w1Env "en" "ja" wSty
        ((episodesToProcessList w1Pa w1Sa "en" "ja").take 1))) ∧
    w1Reports[(episodesToProcessList w1Pa w1Sa "en" "ja").length]? =
      some (finalReport (episodesToProcessList w1Pa w1Sa "en" "ja").length) :=
  have h := bulk_progress_spec w1Env w1Analysis "en" "ja" wSty w1Pa w1Sa w1Res w1Reports
    [30000] rfl rfl rfl
  ⟨h.1, h.2.1, h.2.2.1 1 w1e2 rfl, h.2.2.2⟩

/-- Witness for C3 amended on a two-against-one nested availability pair. -/
theorem needsAttention_amended_witness :
    (computeStats w3Analysis "en" "ja").needsAttention =
      max (w3Pa.episodes_available : Int) (w3Sa.episodes_available : Int)
        - ((episodesWithBothLangs w3Pa w3Sa).length : Int) ∧
    (computeStats w3Analysis "en" "ja").needsAttention = (exactlyOneCount w3Pa w3Sa : Int) :=
  needsAttention_amended w3Analysis "en" "ja" w3Pa w3Sa rfl rfl rfl rfl
    (by decide) (by decide) (Or.inl (by decide))

/-- Witness for C4 on a concrete three-episode listing mixing external, dual,
embedded and failed fetches. -/
theorem availability_analysis_spec_witness :
    analyzeAvailability w4eps "en" =
      { episode_ids := (w4eps.filter (qualAvailable "en")).map (fun pr => pr.1.id)
        external_ids := (w4eps.filter (qualExternal "en")).map (fun pr => pr.1.id)
        embedded_ids := (w4eps.filter (qualEmbedded "en")).map (fun pr => pr.1.id)
        episode_details := w4eps.filterMap (detailEntryOf "en") } ∧
    (finalizeAvailability "en" (analyzeAvailability w4eps "en")).episodes_available =
      (w4eps.filter (qualAvailable "en")).length ∧
    (finalizeAvailability "en" (analyzeAvailability w4eps "en")).episodes_with_embedded =
      (w4eps.filter (qualEmbedded "en")).length :=
  availability_analysis_spec w4eps (by decide) "en"

/-- C10: the filename detector returns null exactly when no language-suffix
pattern matches (a non-null extraction always exhibits a matching suffix
decomposition, hence no-match filenames yield null), and on a filename ending
in two stacked two-letter codes before a subtitle extension it returns the
code nearest the extension, lower-cased: the last suffix wins. -/
theorem extractLanguage_spec :
    (∀ f : String, ¬ hasLanguageSuffix f.toList → extractLanguageFromFilename f = none) ∧
    (∀ f code : String, extractLanguageFromFilename f = some code →
      hasLanguageSuffix f.toList) ∧
    (∀ pre c1 c2 ext : List Char, shapeOk .two c1 = true → shapeOk .two c2 = true →
      extOk ext = true →
      extractLanguageFromFilename
        (String.mk (pre ++ ('.' :: (c1 ++ ('.' :: (c2 ++ ('.' :: ext))))))) =
        some (lowerCode c2)) ∧
    extractLanguageFromFilename "show.zh.hi.srt" = some "hi" := by
  refine ⟨?_, ?_, ?_, ?_⟩
  · intro f hns
    rcases hx : extractLanguageFromFilename f with _ | c
    · rfl
    · exact absurd (extract_some_suffix f c hx) hns
  · intro f code h
    exact extract_some_suffix f code h
  · intro pre c1 c2 ext _ h2 he
    exact extract_stacked_codes pre c1 c2 ext h2 he
  · decide

/-- Witness for C10: a short filename without any suffix yields null, and the
stacked-codes theorem applied to show.zh.hi.srt yields hi. -/
theorem extractLanguage_spec_witness :
    extractLanguageFromFilename "ab" = none ∧
    hasLanguageSuffix ("movie.en.srt" : String).toList ∧
    extractLanguageFromFilename
      (String.mk (("show" : String).toList ++ ('.' :: (("zh" : String).toList ++
        ('.' :: (("hi" : String).toList ++ ('.' :: ("srt" : String).toList))))))) =
      some (lowerCode ("hi" : String).toList) :=
  ⟨extractLanguage_spec.1 "ab"
      (fun h => absurd (hasLanguageSuffix_length _ h) (by decide)),
   extractLanguage_spec.2.1 "movie.en.srt" "en" (by rfl),
   extractLanguage_spec.2.2.1 ("show" : String).toList ("zh" : String).toList
      ("hi" : String).toList ("srt" : String).toList (by decide) (by decide) (by decide)⟩
